import Mathlib

/-!
Verification of the frame-buffer lifecycle and lowres motion-compensation
core of `libavcodec/mpegvideo_dec.c`, via a shallow embedding.

Conventions of the embedding:
* machine `int` values become `Int`; `unsigned` casts become `% 2^32`
  (the value a C `(unsigned)` conversion compares as);
* C arithmetic right shift `x >> k` on a (possibly negative) `int`
  becomes floor division `x / 2^k` (`Int` division in Lean is floor
  division for positive divisors);
* C truncating division `x / n` becomes `Int.tdiv`;
* C `x & ((1 << k) - 1)` (mask of low bits, two's complement) becomes
  `x % 2^k`, which yields the same nonnegative value;
* pixel planes become total functions `Nat → Nat → Nat` (row, column);
  a `memset` of rows `0 ≤ y < h` of width `w` becomes a pointwise
  if-then-else update on that rectangle;
* pointers into the fixed picture pool become `Option Nat` slot indices
  (the pool is only ever indexed with `i < MAX_PICTURE_COUNT`);
* external collaborators that the file only calls (allocator, threading
  progress, pixel interpolation, IDCT) are modelled by oracle fields of
  the context or explicit function arguments, as noted at each use.
-/

set_option maxRecDepth 16384

namespace MpegVideoDec

/-- Pool capacity `MAX_PICTURE_COUNT` (from the mpegpicture header); the
source iterates `for (i = 0; i < MAX_PICTURE_COUNT; i++)`. -/
def MAX_PICTURE_COUNT : Nat := 36

/-- `INT_MAX`, the value published by `ff_thread_report_progress` for a
fully decoded frame. -/
def INT_MAX : Int := 2147483647

/-- `AVERROR(EINVAL)` = `-EINVAL` = `-22`. -/
def AVERROR_EINVAL : Int := -22

/-- `AVERROR(ENOMEM)` = `-ENOMEM` = `-12`. -/
def AVERROR_ENOMEM : Int := -12

/-- Picture types `AV_PICTURE_TYPE_*` used by this file. -/
inductive PictType where
  | I
  | P
  | B
  | S
  deriving DecidableEq, Repr

/-- The codec ids this file distinguishes. -/
inductive CodecId where
  | MPEG1VIDEO
  | MPEG2VIDEO
  | FLV1
  | H263
  | OTHER
  deriving DecidableEq, Repr

/-- Output formats `FMT_*` distinguished by this file. -/
inductive OutFmt where
  | FMT_H263
  | FMT_H261
  | FMT_MPEG1
  | FMT_OTHER
  deriving DecidableEq, Repr

/-- `s->picture_structure` values. -/
inductive PicStruct where
  | PICT_FRAME
  | PICT_TOP_FIELD
  | PICT_BOTTOM_FIELD
  deriving DecidableEq, Repr

/-- Motion-vector geometries `MV_TYPE_*`. -/
inductive MvType where
  | MV_TYPE_16X16
  | MV_TYPE_8X8
  | MV_TYPE_16X8
  | MV_TYPE_FIELD
  | MV_TYPE_DMV
  deriving DecidableEq, Repr

/-- The dequantizer table set selected at the end of `ff_mpv_frame_start`. -/
inductive DequantKind where
  | mpeg2
  | h263
  | mpeg1
  deriving DecidableEq, Repr

/-- One decoded picture (`Picture` + its `AVFrame` + `ThreadFrame`), as far
as this file observes or mutates it.  `allocated` models
`f->buf[0] != NULL`; `luma`, `cb`, `cr` model `f->data[0..2]` as (row,
column) sample grids; `hasChroma` models `f->data[2] != NULL`;
`progress0` / `progress1` model the two decode-progress fields of the
`ThreadFrame`. -/
structure Frame where
  allocated : Bool
  luma : Nat → Nat → Nat
  cb : Nat → Nat → Nat
  cr : Nat → Nat → Nat
  hasChroma : Bool
  pictType : PictType
  keyFrame : Bool
  topFieldFirst : Bool
  interlacedFrame : Bool
  fieldPicture : Bool
  progress0 : Int
  progress1 : Int

/-- One slot of the fixed-capacity pool: the `Picture` side fields the
source reads next to the frame itself. -/
structure Slot where
  frame : Frame
  reference : Nat
  needsRealloc : Bool

/-- The decoding context (`MpegEncContext`), restricted to the state this
file reads or writes.  Fields that are results of external collaborator
calls (allocator contents, external return codes) are oracle fields fixed
per call, as commented. -/
structure Ctx where
  /-- the pool `s->picture`; the source only indexes `i < MAX_PICTURE_COUNT` -/
  picture : Nat → Slot
  /-- `s->picture != NULL` (the pool array itself is allocated) -/
  picturePresent : Bool
  currentPicturePtr : Option Nat
  lastPicturePtr : Option Nat
  nextPicturePtr : Option Nat
  /-- the role-owned shared references `s->current_picture`,
  `s->last_picture`, `s->next_picture`, tracked as "holds a reference" -/
  currentPicRef : Bool
  lastPicRef : Bool
  nextPicRef : Bool
  pict_type : PictType
  droppable : Bool
  codec_id : CodecId
  out_format : OutFmt
  mpeg_quant : Bool
  picture_structure : PicStruct
  first_field : Bool
  progressive_frame : Bool
  progressive_sequence : Bool
  top_field_first : Bool
  /-- `avctx->width` / `avctx->height`, the extent filled by the dummy memsets -/
  width : Nat
  height : Nat
  chroma_x_shift : Nat
  chroma_y_shift : Nat
  mb_x : Nat
  mb_y : Nat
  mb_skipped : Nat
  mb_height : Int
  mcsel : Bool
  alternate_scan : Bool
  quarter_sample : Bool
  mv_type : MvType
  /-- `s->mv[dir][i][xy]` -/
  mv : Nat → Nat → Nat → Int
  coded_picture_number : Nat
  bitstream_buffer_size : Nat
  pp_time : Int
  context_initialized : Bool
  context_reinit : Bool
  /-- `s->linesize` / `s->uvlinesize` (size-dependent, untouched by flush) -/
  linesize : Int
  uvlinesize : Int
  /-- `s->sc.edge_emu_buffer != NULL` (size-dependent scratch) -/
  edgeEmuAllocated : Bool
  /-- size-dependent per-context allocations freed by `ff_mpv_free_context_frame` -/
  contextFrameAllocated : Bool
  /-- `avctx->hwaccel != NULL` -/
  hwaccel : Bool
  /-- oracle: result of `ff_thread_can_start_frame(avctx)` -/
  canStartFrame : Bool
  /-- oracle: whether `ff_alloc_picture` succeeds for this call -/
  allocOk : Bool
  /-- oracle: the (indeterminate) sample contents a freshly allocated
  buffer hands out; a fill overwrites them, untouched planes keep them -/
  allocLuma : Nat → Nat → Nat
  allocCb : Nat → Nat → Nat
  allocCr : Nat → Nat → Nat
  /-- oracle: whether the pixel format has chroma planes (`data[2] != NULL`) -/
  allocHasChroma : Bool
  /-- `s->block_last_index[i]` -/
  block_last_index : Nat → Int
  /-- the external IDCT-and-add kernel `s->idsp.idct_add`, consumed opaquely -/
  idctAdd : (Nat → Nat → Nat) → Int → (Fin 64 → Int) → (Nat → Nat → Nat)
  dctUnquantize : DequantKind
  /-- oracle: return value of `av_image_check_size(width, height, 0, avctx)` -/
  imageCheckRet : Int
  /-- oracle: return value of `av_pix_fmt_get_chroma_sub_sample` plus the
  shifts it would store on success -/
  pixFmtRet : Int
  pixFmtHShift : Nat
  pixFmtVShift : Nat
  /-- oracle: return value of `ff_mpv_init_context_frame` -/
  initContextFrameRet : Int
  /-- oracle: return value of `ff_mpv_init_duplicate_contexts` -/
  initDuplicateRet : Int
  /-- `s->thread_context[0] == s` after the reset in the size change -/
  threadContextReset : Bool

/-- Replace pool slot `i`. -/
def setSlot (s : Ctx) (i : Nat) (sl : Slot) : Ctx :=
  { s with picture := fun j => if j = i then sl else s.picture j }

/-- Modelled from the spec: `ff_mpeg_unref_picture` releases a slot's
buffer (the function itself lives outside this file): the slot becomes
empty — no allocated buffer, no reference flag, nothing pending.  The
dead sample grids are irrelevant and kept as-is. -/
def unrefSlot (sl : Slot) : Slot :=
  { sl with
    frame := { sl.frame with allocated := false }
    reference := 0
    needsRealloc := false }

/-- Modelled from the spec: `ff_alloc_picture` (outside this file)
allocates pixel planes for the slot; the fresh buffer's samples are the
allocator oracle's indeterminate contents and the progress counters are
reset. -/
def allocSlot (s : Ctx) (sl : Slot) : Slot :=
  { sl with
    frame := { sl.frame with
      allocated := true
      luma := s.allocLuma
      cb := s.allocCb
      cr := s.allocCr
      hasChroma := s.allocHasChroma
      progress0 := -1
      progress1 := -1 } }

/-- Modelled from the spec: `ff_find_unused_picture` (outside this file)
returns an empty slot of the pool, or fails when none exists. -/
def findUnusedPicture (s : Ctx) : Option Nat :=
  (List.range MAX_PICTURE_COUNT).find? fun i => !(s.picture i).frame.allocated

/-- Modelled from the spec: `ff_thread_report_progress(&pic->tf, n, field)`
publishes decode progress `n` for the given field of the slot's frame. -/
def reportProgress (sl : Slot) (n : Int) (field : Nat) : Slot :=
  match field with
  | 0 => { sl with frame := { sl.frame with progress0 := n } }
  | _ => { sl with frame := { sl.frame with progress1 := n } }

/-- `AV_CEIL_RSHIFT(a, shift)`. -/
def ceilRShift (a : Nat) (shift : Nat) : Nat :=
  (a + (1 <<< shift) - 1) >>> shift

/-- Fill rows `0 ≤ y < h`, columns `0 ≤ x < w` of a plane with `v`
(a per-row `memset(..., v, w)` loop over `h` rows). -/
def fillRect (p : Nat → Nat → Nat) (v : Nat) (w h : Nat) : Nat → Nat → Nat :=
  fun y x => if y < h ∧ x < w then v else p y x

/-!  `ff_mpv_frame_start` (lines 268-481), decomposed into its successive
steps so properties of intermediate states can be stated.  A `none`
result models a negative return (frame aborted). -/

/-- Lines 281-285: if the outgoing picture is not a B picture, release the
old `last` reference when it is distinct from `next` and holds data. -/
def releaseOldLast (s : Ctx) : Ctx :=
  match s.lastPicturePtr with
  | some l =>
    if s.pict_type ≠ PictType.B ∧ some l ≠ s.nextPicturePtr ∧
        (s.picture l).frame.allocated = true then
      setSlot s l (unrefSlot (s.picture l))
    else s
  | none => s

/-- The condition of lines 289-292 under which the release pass frees
slot `i`: `!reference || (not last && not next && !needs_realloc)`.
(The pointer inequalities hold vacuously when the role pointer is NULL.) -/
def releaseNonRefCond (s : Ctx) (i : Nat) : Prop :=
  (s.picture i).reference = 0 ∨
    (s.lastPicturePtr ≠ some i ∧ s.nextPicturePtr ≠ some i ∧
     (s.picture i).needsRealloc = false)

instance (s : Ctx) (i : Nat) : Decidable (releaseNonRefCond s i) := by
  unfold releaseNonRefCond
  infer_instance

/-- Lines 288-295: the "release non reference/forgotten frames" pass,
iterating slots `0, 1, ..., n-1` in order. -/
def releaseNonRefLoop (s : Ctx) : Nat → Ctx
  | 0 => s
  | n + 1 =>
    let t := releaseNonRefLoop s n
    if releaseNonRefCond t n then setSlot t n (unrefSlot (t.picture n)) else t

/-- The full release pass over all `MAX_PICTURE_COUNT` slots. -/
def releaseNonRef (s : Ctx) : Ctx :=
  releaseNonRefLoop s MAX_PICTURE_COUNT

/-- Lines 297-299: drop the three role-owned shared references. -/
def unrefRoleRefs (s : Ctx) : Ctx :=
  { s with currentPicRef := false, lastPicRef := false, nextPicRef := false }

/-- Lines 273 and 281-299: the work before the current picture is
selected (`s->mb_skipped = 0` plus the release steps). -/
def mpvFrameStartPrep (s : Ctx) : Ctx :=
  unrefRoleRefs (releaseNonRef (releaseOldLast { s with mb_skipped := 0 }))

/-- Lines 301-343: select or reuse a slot for the current picture, set its
reference strength, allocate it, fill in the frame tags and take the
role-owned reference.  `none` models the negative returns of lines
307-310 and 322-323. -/
def selectCurrent (s : Ctx) : Option Ctx :=
  let pick : Option Nat :=
    match s.currentPicturePtr with
    | some c =>
      if (s.picture c).frame.allocated = false then some c else findUnusedPicture s
    | none => findUnusedPicture s
  match pick with
  | none => none
  | some p =>
    if s.allocOk = false then none
    else
      let sl := { s.picture p with
        reference := if s.droppable = false ∧ s.pict_type ≠ PictType.B then 3 else 0 }
      let sl := allocSlot s sl
      let tff : Bool :=
        if (s.codec_id = CodecId.MPEG1VIDEO ∨ s.codec_id = CodecId.MPEG2VIDEO) ∧
            s.picture_structure ≠ PicStruct.PICT_FRAME then
          decide (s.picture_structure = PicStruct.PICT_TOP_FIELD) == s.first_field
        else s.top_field_first
      let sl := { sl with frame := { sl.frame with
        topFieldFirst := tff
        interlacedFrame := !s.progressive_frame && !s.progressive_sequence
        fieldPicture := decide (s.picture_structure ≠ PicStruct.PICT_FRAME)
        pictType := s.pict_type
        keyFrame := decide (s.pict_type = PictType.I) } }
      let t := setSlot s p sl
      some { t with
        currentPicturePtr := some p
        coded_picture_number := s.coded_picture_number + 1
        currentPicRef := true }

/-- Lines 345-349: the role rotation.  For a non-B picture `last ← next`,
and additionally `next ← current` when the frame is not droppable. -/
def rotateRoles (s : Ctx) : Ctx :=
  if s.pict_type ≠ PictType.B then
    let t := { s with lastPicturePtr := s.nextPicturePtr }
    if t.droppable = false then { t with nextPicturePtr := t.currentPicturePtr } else t
  else s

/-- The state of `ff_mpv_frame_start` immediately after the rotation step
of lines 345-349 (when the call reaches it). -/
def mpvFrameStartAfterRotate (s : Ctx) : Option Ctx :=
  (selectCurrent (mpvFrameStartPrep s)).map rotateRoles

/-- The gate of lines 357-358: a dummy `last` is synthesized when `last`
is absent or unallocated and the picture type is not I. -/
def dummyLastNeeded (s : Ctx) : Bool :=
  (match s.lastPicturePtr with
   | none => true
   | some l => !(s.picture l).frame.allocated) && decide (s.pict_type ≠ PictType.I)

/-- Lines 386-404: the plane fills of the dummy last picture: luma to
mid-grey `0x80`, both chroma planes (when present) to `0x80` over the
chroma-subsampled extent, then for the legacy FLV1/H263 codecs the luma
is re-filled with `16`. -/
def dummyFillFrame (s : Ctx) (fr : Frame) : Frame :=
  let fr := { fr with luma := fillRect fr.luma 128 s.width s.height }
  let fr :=
    if fr.hasChroma then
      { fr with
        cb := fillRect fr.cb 128 (ceilRShift s.width s.chroma_x_shift)
                (ceilRShift s.height s.chroma_y_shift)
        cr := fillRect fr.cr 128 (ceilRShift s.width s.chroma_x_shift)
                (ceilRShift s.height s.chroma_y_shift) }
    else fr
  if s.codec_id = CodecId.FLV1 ∨ s.codec_id = CodecId.H263 then
    { fr with luma := fillRect fr.luma 16 s.width s.height }
  else fr

/-- Lines 377-407 applied to pool slot `idx`: make it a P-type reference
(`reference = 3`, not a key frame), allocate it, fill its planes (unless
decoding to a hardware surface, `avctx->hwaccel`) and publish full decode
progress (`INT_MAX`) on both fields. -/
def dummyLastSlot (s : Ctx) (idx : Nat) : Slot :=
  let sl := { s.picture idx with reference := 3 }
  let sl := { sl with frame := { sl.frame with
    keyFrame := false
    pictType := PictType.P } }
  let sl := allocSlot s sl
  let sl := if s.hwaccel = false then
      { sl with frame := dummyFillFrame s sl.frame }
    else sl
  reportProgress (reportProgress sl INT_MAX 0) INT_MAX 1

/-- Lines 357-408: synthesize a dummy `last` reference when needed:
claim a free slot, point `last` at it and build the dummy in it.  `none`
models the negative returns (no free slot, allocation failure). -/
def mpvDummyLast (s : Ctx) : Option Ctx :=
  if dummyLastNeeded s then
    match findUnusedPicture s with
    | none => none
    | some idx =>
      if s.allocOk = false then none
      else some (setSlot { s with lastPicturePtr := some idx } idx (dummyLastSlot s idx))
  else some s

/-- The intermediate state after the dummy-last step of lines 357-408. -/
def mpvFrameStartAfterDummyLast (s : Ctx) : Option Ctx :=
  (mpvFrameStartAfterRotate s).bind mpvDummyLast

/-- The gate of lines 409-410: a dummy `next` is synthesized when `next`
is absent or unallocated and the picture type is B. -/
def dummyNextNeeded (s : Ctx) : Bool :=
  (match s.nextPicturePtr with
   | none => true
   | some n => !(s.picture n).frame.allocated) && decide (s.pict_type = PictType.B)

/-- Lines 419-428 applied to pool slot `idx`: the dummy `next` build:
reference marking, allocation and the progress publication.  Unlike the
dummy `last` (lines 386-404), the planes are never filled. -/
def dummyNextSlot (s : Ctx) (idx : Nat) : Slot :=
  let sl := { s.picture idx with reference := 3 }
  let sl := { sl with frame := { sl.frame with
    keyFrame := false
    pictType := PictType.P } }
  let sl := allocSlot s sl
  reportProgress (reportProgress sl INT_MAX 0) INT_MAX 1

/-- Lines 409-429: synthesize a dummy `next` reference when needed. -/
def mpvDummyNext (s : Ctx) : Option Ctx :=
  if dummyNextNeeded s then
    match findUnusedPicture s with
    | none => none
    | some idx =>
      if s.allocOk = false then none
      else some (setSlot { s with nextPicturePtr := some idx } idx (dummyNextSlot s idx))
  else some s

/-- Lines 435-480: re-take the role-owned `last`/`next` references when
those roles hold data, and select the dequantizer table set.  (The
field-picture linesize doubling of lines 451-461 only rewrites the
linesize scratch of the role-owned frame copies, which this model keeps
abstract, and lines 477-478 are a debug-only fill.) -/
def mpvFrameStartFinish (s : Ctx) : Ctx :=
  let lref : Bool := match s.lastPicturePtr with
    | some l => (s.picture l).frame.allocated
    | none => false
  let nref : Bool := match s.nextPicturePtr with
    | some n => (s.picture n).frame.allocated
    | none => false
  let dq : DequantKind :=
    if s.mpeg_quant = true ∨ s.codec_id = CodecId.MPEG2VIDEO then DequantKind.mpeg2
    else if s.out_format = OutFmt.FMT_H263 ∨ s.out_format = OutFmt.FMT_H261 then
      DequantKind.h263
    else DequantKind.mpeg1
  { s with lastPicRef := lref, nextPicRef := nref, dctUnquantize := dq }

/-- `ff_mpv_frame_start` (lines 268-481): `none` models a negative
return. -/
def ff_mpv_frame_start (s : Ctx) : Option Ctx :=
  if s.canStartFrame = false then none
  else
    (mpvFrameStartAfterRotate s).bind fun s2 =>
      (mpvDummyLast s2).bind fun s3 =>
        (mpvDummyNext s3).map mpvFrameStartFinish

/-!  `ff_mpeg_flush` (lines 537-564). -/

/-- Lines 544-545: unreference every pooled picture, slots `0..n-1`. -/
def unrefAllLoop (s : Ctx) : Nat → Ctx
  | 0 => s
  | n + 1 =>
    let t := unrefAllLoop s n
    setSlot t n (unrefSlot (t.picture n))

/-- `ff_mpeg_flush` (lines 537-564): a no-op when the pool array is not
allocated; otherwise unreference all pooled pictures, clear the three
role pointers, drop the three role-owned shared references, and zero the
macroblock position, the bitstream staging size and `pp_time`.  (The
`parse_context` resets of lines 554-561 sit under the legacy
`FF_API_FLAG_TRUNCATED` build switch and are not modelled.) -/
def ff_mpeg_flush (s : Ctx) : Ctx :=
  if s.picturePresent = false then s
  else
    let s1 := unrefAllLoop s MAX_PICTURE_COUNT
    let s2 := { s1 with
      currentPicturePtr := none
      lastPicturePtr := none
      nextPicturePtr := none }
    let s3 := { s2 with
      currentPicRef := false
      lastPicRef := false
      nextPicRef := false }
    { s3 with mb_x := 0, mb_y := 0, bitstream_buffer_size := 0, pp_time := 0 }

/-!  `ff_mpv_common_frame_size_change` (lines 192-238). -/

/-- Modelled from the spec: `ff_mpv_free_context_frame` (outside this
file) frees the frame-size-dependent per-context allocations. -/
def freeContextFrame (s : Ctx) : Ctx :=
  { s with contextFrameAllocated := false }

/-- Lines 201-203: mark pooled pictures `0..n-1` as needing
reallocation. -/
def markReallocLoop (s : Ctx) : Nat → Ctx
  | 0 => s
  | n + 1 =>
    let t := markReallocLoop s n
    setSlot t n { t.picture n with needsRealloc := true }

/-- Lines 234-237: the failure path of the size change frees the
partially allocated state and marks the context as needing reinit. -/
def frameSizeChangeFail (s : Ctx) (err : Int) : Int × Ctx :=
  (err, { freeContextFrame s with context_reinit := true })

/-- `ff_mpv_common_frame_size_change` (lines 192-238), returning the
status code and the new state.  The external validation and init calls
are represented by their oracle return values. -/
def ff_mpv_common_frame_size_change (s : Ctx) : Int × Ctx :=
  if s.context_initialized = false then (AVERROR_EINVAL, s)
  else
    let s1 := freeContextFrame s
    let s2 := if s1.picturePresent = true then markReallocLoop s1 MAX_PICTURE_COUNT
      else s1
    let s3 := { s2 with
      lastPicturePtr := none
      nextPicturePtr := none
      currentPicturePtr := none }
    if ((s3.width ≠ 0 ∨ s3.height ≠ 0) ∧ s3.imageCheckRet < 0) then
      frameSizeChangeFail s3 s3.imageCheckRet
    else if s3.pixFmtRet < 0 then frameSizeChangeFail s3 s3.pixFmtRet
    else
      let s4 := { s3 with
        chroma_x_shift := s3.pixFmtHShift
        chroma_y_shift := s3.pixFmtVShift }
      if s4.initContextFrameRet ≠ 0 then
        frameSizeChangeFail s4 s4.initContextFrameRet
      else
        let s5 := { s4 with contextFrameAllocated := true, threadContextReset := true }
        if s5.width ≠ 0 ∧ s5.height ≠ 0 ∧ s5.initDuplicateRet < 0 then
          frameSizeChangeFail s5 s5.initDuplicateRet
        else (0, { s5 with context_reinit := false })

/-!  `REBASE_PICTURE` and the role-pointer transfer of
`ff_mpeg_update_thread_context` (lines 127-134). -/

/-- `REBASE_PICTURE` (lines 127-130).  Pointer addresses are in units of
one `Picture`; a context's pool occupies `[base, base+MAX_PICTURE_COUNT)`.
A source pointer inside the old context's pool becomes the address at the
same index inside the new context's pool; anything else (NULL included)
becomes NULL. -/
def REBASE_PICTURE (pic : Option Int) (newBase oldBase : Int) : Option Int :=
  match pic with
  | none => none
  | some p =>
    if oldBase ≤ p ∧ p < oldBase + MAX_PICTURE_COUNT then
      some (newBase + (p - oldBase))
    else none

/-- The pool base address and the three raw role pointers of a context as
the role-pointer transfer sees them. -/
structure ThreadRoles where
  pictureBase : Int
  currentPicturePtr : Option Int
  lastPicturePtr : Option Int
  nextPicturePtr : Option Int

/-- Lines 132-134: the destination's three role pointers after
`ff_mpeg_update_thread_context` rebases the source's. -/
def updateRolePointers (dst src : ThreadRoles) : ThreadRoles :=
  { dst with
    lastPicturePtr := REBASE_PICTURE src.lastPicturePtr dst.pictureBase src.pictureBase
    currentPicturePtr := REBASE_PICTURE src.currentPicturePtr dst.pictureBase src.pictureBase
    nextPicturePtr := REBASE_PICTURE src.nextPicturePtr dst.pictureBase src.pictureBase }

/-!  `lowest_referenced_row` (lines 960-993). -/

/-- `av_clip(a, amin, amax)`. -/
def av_clip (a amin amax : Int) : Int :=
  if a < amin then amin else if a > amax then amax else a

/-- `INT_MIN`, the seed of the `FFMAX` fold. -/
def INT_MIN : Int := -2147483648

/-- Lines 982-990: fold the vertical components of the first `mvs`
vectors through `FFMAX`/`FFMIN`, convert the extremal displacement to
macroblock rows and clip. -/
def lowRowCore (s : Ctx) (dir : Nat) (mvs : Nat) : Int :=
  let mys := (List.range mvs).map fun i => s.mv dir i 1
  let my_max := mys.foldl max INT_MIN
  let my_min := mys.foldl min INT_MAX
  let qpel_shift : Nat := if s.quarter_sample = true then 0 else 1
  let off := (max (-my_min) my_max * 2 ^ qpel_shift + 63) / 64
  av_clip ((s.mb_y : Int) + off) 0 (s.mb_height - 1)

/-- `lowest_referenced_row` (lines 960-993): for field-structured
pictures, global-motion macroblocks (`mcsel`), and any geometry other
than 16x16 / 16x8 / 8x8, conservatively return the last macroblock row;
otherwise compute the clipped extremal row. -/
def lowest_referenced_row (s : Ctx) (dir : Nat) : Int :=
  if s.picture_structure ≠ PicStruct.PICT_FRAME ∨ s.mcsel = true then
    s.mb_height - 1
  else
    match s.mv_type with
    | MvType.MV_TYPE_16X16 => lowRowCore s dir 1
    | MvType.MV_TYPE_16X8 => lowRowCore s dir 2
    | MvType.MV_TYPE_8X8 => lowRowCore s dir 4
    | _ => s.mb_height - 1

/-- The absolute value written as the claim's "largest absolute vertical
displacement" reads: `|v| = max v (-v)`. -/
def intAbs (v : Int) : Int := max v (-v)

/-- The largest absolute vertical displacement among the first `mvs`
vectors. -/
def maxAbsMy (s : Ctx) (dir : Nat) (mvs : Nat) : Int :=
  ((List.range mvs).map fun i => intAbs (s.mv dir i 1)).foldl max 0

/-!  `add_dct` (lines 996-1002). -/

/-- `add_dct` (lines 996-1002): when the block has a nonzero coefficient
(`block_last_index[i] >= 0`), the external IDCT-add kernel adds the
residual block into the destination samples in place; otherwise the
destination is untouched. -/
def add_dct (s : Ctx) (block : Fin 64 → Int) (i : Nat)
    (dest : Nat → Nat → Nat) (line_size : Int) : Nat → Nat → Nat :=
  if 0 ≤ s.block_last_index i then s.idctAdd dest line_size block else dest

/-!  The lowres motion-compensation edge tests (lines 573-617, 620-757
and 759-814).  Each function's test is embedded over its incoming
arguments; `int` arithmetic is over `Int` with the C conversions made
explicit. -/

/-- The value a C `(unsigned)` cast of `x` compares as (mod `2^32`). -/
def toU32 (x : Int) : Int := x % 4294967296

/-- C arithmetic right shift `x >> k` of an `int`: floor division. -/
def sar (x : Int) (k : Nat) : Int := x / 2 ^ k

/-- C `!!x`. -/
def nz (x : Int) : Int := if x = 0 then 0 else 1

/-- `field_based` as a shift amount. -/
def fbShift (b : Bool) : Nat := if b then 1 else 0

/-- C `a | (b & 1)` for `0 ≤ a` and `b ∈ {0,1}`: set bit 0 of `a` when
`b` is odd. -/
def bitOr0 (a b : Int) : Int := 2 * sar a 1 + max (a % 2) b

/-- The arguments of `hpel_motion_lowres` (lines 573-617) that its edge
test reads.  `h_edge_pos` / `v_edge_pos` arrive already shifted by
`lowres` from the caller. -/
structure HpelLowresArgs where
  lowres : Nat
  quarter_sample : Bool
  field_based : Bool
  src_x0 : Int
  src_y0 : Int
  w : Int
  h : Int
  h_edge_pos : Int
  v_edge_pos : Int
  motion_x : Int
  motion_y : Int

/-- Lines 588-591: quarter-sample vectors are halved (C truncating
division). -/
def hpelMotionX (a : HpelLowresArgs) : Int :=
  if a.quarter_sample then a.motion_x.tdiv 2 else a.motion_x

def hpelMotionY (a : HpelLowresArgs) : Int :=
  if a.quarter_sample then a.motion_y.tdiv 2 else a.motion_y

/-- Line 593: `sx = motion_x & s_mask` with `s_mask = (2 << lowres) - 1`,
i.e. the low `lowres+1` bits. -/
def hpelSX (a : HpelLowresArgs) : Int := hpelMotionX a % 2 ^ (a.lowres + 1)

def hpelSY (a : HpelLowresArgs) : Int := hpelMotionY a % 2 ^ (a.lowres + 1)

/-- Line 595: `src_x += motion_x >> lowres + 1`. -/
def hpelSrcX (a : HpelLowresArgs) : Int :=
  a.src_x0 + sar (hpelMotionX a) (a.lowres + 1)

def hpelSrcY (a : HpelLowresArgs) : Int :=
  a.src_y0 + sar (hpelMotionY a) (a.lowres + 1)

/-- The edge-emulation test of lines 600-601. -/
def hpelEmuCond (a : HpelLowresArgs) : Prop :=
  toU32 (hpelSrcX a) > max (a.h_edge_pos - nz (hpelSX a) - a.w) 0 ∨
  toU32 (hpelSrcY a) >
    max (sar a.v_edge_pos (fbShift a.field_based) - nz (hpelSY a) - a.h) 0

instance (a : HpelLowresArgs) : Decidable (hpelEmuCond a) := by
  unfold hpelEmuCond
  infer_instance

/-- The source rectangle the block actually requires, out of bounds: `w`
columns plus a one-sample margin whenever the subpixel remainder is
nonzero (an upper bound on the interpolation footprint), `h` rows plus
margin counted in field lines — i.e. doubled vertically in frame lines
for field-based blocks — against the legal `[0, h_edge_pos) ×
[0, v_edge_pos >> field_based)` region. -/
def hpelRectOOB (a : HpelLowresArgs) : Prop :=
  hpelSrcX a < 0 ∨ hpelSrcX a + a.w + nz (hpelSX a) > a.h_edge_pos ∨
  hpelSrcY a < 0 ∨
  hpelSrcY a + a.h + nz (hpelSY a) > sar a.v_edge_pos (fbShift a.field_based)

instance (a : HpelLowresArgs) : Decidable (hpelRectOOB a) := by
  unfold hpelRectOOB
  infer_instance

/-- The arguments of `mpeg_motion_lowres` (lines 620-757) its edge test
and chroma addressing read.  `h_edge_pos_full` / `v_edge_pos_full` are
`s->h_edge_pos` / `s->v_edge_pos`; `gray` is
`CONFIG_GRAY && (s->avctx->flags & AV_CODEC_FLAG_GRAY)`. -/
structure MpegMotionLowresArgs where
  lowres : Nat
  quarter_sample : Bool
  field_based : Bool
  bottom_field : Int
  field_select : Int
  out_format : OutFmt
  chroma_x_shift : Nat
  chroma_y_shift : Nat
  mb_x : Int
  mb_y : Int
  motion_x : Int
  motion_y : Int
  h : Int
  h_edge_pos_full : Int
  v_edge_pos_full : Int
  gray : Bool

/-- Line 637: `block_s = 8 >> lowres`. -/
def mpegBlockS (a : MpegMotionLowresArgs) : Int := sar 8 a.lowres

/-- Line 639: `h_edge_pos = s->h_edge_pos >> lowres`. -/
def mpegEdgeH (a : MpegMotionLowresArgs) : Int := sar a.h_edge_pos_full a.lowres

/-- Line 640: `v_edge_pos = s->v_edge_pos >> lowres`. -/
def mpegEdgeV (a : MpegMotionLowresArgs) : Int := sar a.v_edge_pos_full a.lowres

/-- Lines 645-648: quarter-sample halving of `motion_x`. -/
def mpegMX (a : MpegMotionLowresArgs) : Int :=
  if a.quarter_sample then a.motion_x.tdiv 2 else a.motion_x

/-- Lines 645-652: quarter-sample halving, then the field-based vertical
adjustment `motion_y += (bottom_field - field_select) * ((1 << lowres) - 1)`. -/
def mpegMY (a : MpegMotionLowresArgs) : Int :=
  let m := if a.quarter_sample then a.motion_y.tdiv 2 else a.motion_y
  if a.field_based then m + (a.bottom_field - a.field_select) * (2 ^ a.lowres - 1)
  else m

/-- Line 654. -/
def mpegSX (a : MpegMotionLowresArgs) : Int := mpegMX a % 2 ^ (a.lowres + 1)

/-- Line 655. -/
def mpegSY (a : MpegMotionLowresArgs) : Int := mpegMY a % 2 ^ (a.lowres + 1)

/-- Line 656: `src_x = s->mb_x * 2 * block_s + (motion_x >> lowres + 1)`. -/
def mpegSrcX (a : MpegMotionLowresArgs) : Int :=
  a.mb_x * 2 * mpegBlockS a + sar (mpegMX a) (a.lowres + 1)

/-- Line 657: `src_y = (mb_y * 2 * block_s >> field_based) +
(motion_y >> lowres + 1)`. -/
def mpegSrcY (a : MpegMotionLowresArgs) : Int :=
  sar (a.mb_y * 2 * mpegBlockS a) (fbShift a.field_based) +
    sar (mpegMY a) (a.lowres + 1)

/-- Lines 659-696: the chroma subpixel phases and source coordinates
`(uvsx, uvsy, uvsrc_x, uvsrc_y)`, by output format: H263 derives them
from the luma values, H261 uses full-pel chroma vectors (`/ 4`), 4:2:0
halves both components, 4:2:2 only the horizontal one, 4:4:4 reuses the
luma addressing. -/
def mpegChroma (a : MpegMotionLowresArgs) : Int × Int × Int × Int :=
  if a.out_format = OutFmt.FMT_H263 then
    ( bitOr0 (sar (mpegMX a) 1 % 2 ^ (a.lowres + 1)) (mpegSX a % 2),
      bitOr0 (sar (mpegMY a) 1 % 2 ^ (a.lowres + 1)) (mpegSY a % 2),
      sar (mpegSrcX a) 1,
      sar (mpegSrcY a) 1 )
  else if a.out_format = OutFmt.FMT_H261 then
    ( (2 * (mpegMX a).tdiv 4) % 2 ^ (a.lowres + 1),
      (2 * (mpegMY a).tdiv 4) % 2 ^ (a.lowres + 1),
      a.mb_x * mpegBlockS a + sar ((mpegMX a).tdiv 4) a.lowres,
      a.mb_y * mpegBlockS a + sar ((mpegMY a).tdiv 4) a.lowres )
  else if a.chroma_y_shift ≠ 0 then
    ( (mpegMX a).tdiv 2 % 2 ^ (a.lowres + 1),
      (mpegMY a).tdiv 2 % 2 ^ (a.lowres + 1),
      a.mb_x * mpegBlockS a + sar ((mpegMX a).tdiv 2) (a.lowres + 1),
      sar (a.mb_y * mpegBlockS a) (fbShift a.field_based) +
        sar ((mpegMY a).tdiv 2) (a.lowres + 1) )
  else if a.chroma_x_shift ≠ 0 then
    ( (mpegMX a).tdiv 2 % 2 ^ (a.lowres + 1),
      mpegMY a % 2 ^ (a.lowres + 1),
      a.mb_x * mpegBlockS a + sar ((mpegMX a).tdiv 2) (a.lowres + 1),
      mpegSrcY a )
  else
    ( mpegMX a % 2 ^ (a.lowres + 1),
      mpegMY a % 2 ^ (a.lowres + 1),
      mpegSrcX a,
      mpegSrcY a )

def mpegUVSX (a : MpegMotionLowresArgs) : Int := (mpegChroma a).1

def mpegUVSY (a : MpegMotionLowresArgs) : Int := (mpegChroma a).2.1

def mpegUVSrcX (a : MpegMotionLowresArgs) : Int := (mpegChroma a).2.2.1

def mpegUVSrcY (a : MpegMotionLowresArgs) : Int := (mpegChroma a).2.2.2

/-- The single edge-emulation test of lines 702-703, evaluated on the
luma coordinates plus the `uvsrc_y < 0` chroma top-overrun check. -/
def mpegEmuCond (a : MpegMotionLowresArgs) : Prop :=
  toU32 (mpegSrcX a) > max (mpegEdgeH a - nz (mpegSX a) - 2 * mpegBlockS a) 0 ∨
  mpegUVSrcY a < 0 ∨
  toU32 (mpegSrcY a) >
    max (sar (mpegEdgeV a) (fbShift a.field_based) - nz (mpegSY a) - a.h) 0

instance (a : MpegMotionLowresArgs) : Decidable (mpegEmuCond a) := by
  unfold mpegEmuCond
  infer_instance

/-- Lines 710-727: when the test fires and chroma is not suppressed by
the gray flag, both chroma planes are rerouted through the edge
emulator. -/
def mpegChromaEmulated (a : MpegMotionLowresArgs) : Prop :=
  mpegEmuCond a ∧ a.gray = false

instance (a : MpegMotionLowresArgs) : Decidable (mpegChromaEmulated a) := by
  unfold mpegChromaEmulated
  infer_instance

/-- The luma source rectangle of the block (width `2*block_s`, `h` field
rows, one-sample margins for nonzero subpixel remainders), out of the
legal luma region. -/
def mpegLumaRectOOB (a : MpegMotionLowresArgs) : Prop :=
  mpegSrcX a < 0 ∨ mpegSrcX a + 2 * mpegBlockS a + nz (mpegSX a) > mpegEdgeH a ∨
  mpegSrcY a < 0 ∨
  mpegSrcY a + a.h + nz (mpegSY a) >
    sar (mpegEdgeV a) (fbShift a.field_based)

instance (a : MpegMotionLowresArgs) : Decidable (mpegLumaRectOOB a) := by
  unfold mpegLumaRectOOB
  infer_instance

/-- The chroma source rectangle of the block — width `2*block_s`
narrowed by the horizontal chroma shift, `hc` rows as the chroma
compensation of lines 748-754 uses, one-sample margins for nonzero
chroma subpixel remainders — out of the legal chroma region
`[0, h_edge_pos >> 1) × [0, v_edge_pos >> 1)` that the emulation calls of
lines 715-724 themselves use. -/
def mpegChromaRectOOB (a : MpegMotionLowresArgs) : Prop :=
  mpegUVSrcX a < 0 ∨
  mpegUVSrcX a + sar (2 * mpegBlockS a) a.chroma_x_shift + nz (mpegUVSX a) >
    sar (mpegEdgeH a) 1 ∨
  mpegUVSrcY a < 0 ∨
  mpegUVSrcY a +
      (if a.chroma_y_shift ≠ 0 then sar (a.h + 1 - a.bottom_field) 1 else a.h) +
      nz (mpegUVSY a) >
    sar (mpegEdgeV a) 1

instance (a : MpegMotionLowresArgs) : Decidable (mpegChromaRectOOB a) := by
  unfold mpegChromaRectOOB
  infer_instance

/-- The arguments of `chroma_4mv_motion_lowres` (lines 759-814) its edge
test reads.  `mx` / `my` are the combined chroma vector after the
(external) `ff_h263_round_chroma` rounding of lines 782-783. -/
structure Chroma4mvLowresArgs where
  lowres : Nat
  mb_x : Int
  mb_y : Int
  mx : Int
  my : Int
  h_edge_pos_full : Int
  v_edge_pos_full : Int

/-- Line 767. -/
def c4mvBlockS (a : Chroma4mvLowresArgs) : Int := sar 8 a.lowres

/-- Line 769: `h_edge_pos = s->h_edge_pos >> lowres + 1`. -/
def c4mvEdgeH (a : Chroma4mvLowresArgs) : Int :=
  sar a.h_edge_pos_full (a.lowres + 1)

/-- Line 770. -/
def c4mvEdgeV (a : Chroma4mvLowresArgs) : Int :=
  sar a.v_edge_pos_full (a.lowres + 1)

/-- Line 785. -/
def c4mvSX (a : Chroma4mvLowresArgs) : Int := a.mx % 2 ^ (a.lowres + 1)

/-- Line 786. -/
def c4mvSY (a : Chroma4mvLowresArgs) : Int := a.my % 2 ^ (a.lowres + 1)

/-- Line 787. -/
def c4mvSrcX (a : Chroma4mvLowresArgs) : Int :=
  a.mb_x * c4mvBlockS a + sar a.mx (a.lowres + 1)

/-- Line 788. -/
def c4mvSrcY (a : Chroma4mvLowresArgs) : Int :=
  a.mb_y * c4mvBlockS a + sar a.my (a.lowres + 1)

/-- The separate chroma edge test of lines 792-793, against the
chroma-specific edge positions. -/
def c4mvEmuCond (a : Chroma4mvLowresArgs) : Prop :=
  toU32 (c4mvSrcX a) > max (c4mvEdgeH a - nz (c4mvSX a) - c4mvBlockS a) 0 ∨
  toU32 (c4mvSrcY a) > max (c4mvEdgeV a - nz (c4mvSY a) - c4mvBlockS a) 0

instance (a : Chroma4mvLowresArgs) : Decidable (c4mvEmuCond a) := by
  unfold c4mvEmuCond
  infer_instance

/-- The chroma source rectangle of the 8x8-geometry chroma block, out of
its legal region. -/
def c4mvRectOOB (a : Chroma4mvLowresArgs) : Prop :=
  c4mvSrcX a < 0 ∨ c4mvSrcX a + c4mvBlockS a + nz (c4mvSX a) > c4mvEdgeH a ∨
  c4mvSrcY a < 0 ∨ c4mvSrcY a + c4mvBlockS a + nz (c4mvSY a) > c4mvEdgeV a

instance (a : Chroma4mvLowresArgs) : Decidable (c4mvRectOOB a) := by
  unfold c4mvRectOOB
  infer_instance

/-- A 4:2:0 lowres block at the left picture edge, motion `(-1, 0)`: the
luma rectangle starts one sample left of the picture, the chroma
rectangle is fully inside its bounds. -/
def cex5 : MpegMotionLowresArgs where
  lowres := 1
  quarter_sample := false
  field_based := false
  bottom_field := 0
  field_select := 0
  out_format := OutFmt.FMT_OTHER
  chroma_x_shift := 1
  chroma_y_shift := 1
  mb_x := 0
  mb_y := 0
  motion_x := -1
  motion_y := 0
  h := 8
  h_edge_pos_full := 32
  v_edge_pos_full := 16
  gray := false

/-- Concrete witness arguments for the three tests. -/
def c5hpel : HpelLowresArgs where
  lowres := 0
  quarter_sample := false
  field_based := false
  src_x0 := 0
  src_y0 := 0
  w := 8
  h := 8
  h_edge_pos := 16
  v_edge_pos := 16
  motion_x := 0
  motion_y := 0

def c5c4mv : Chroma4mvLowresArgs where
  lowres := 0
  mb_x := 0
  mb_y := 0
  mx := 0
  my := 0
  h_edge_pos_full := 32
  v_edge_pos_full := 32

/-- A baseline concrete context used by the witnesses: an empty pool and
benign scalar state. -/
def emptyFrame : Frame where
  allocated := false
  luma := fun _ _ => 0
  cb := fun _ _ => 0
  cr := fun _ _ => 0
  hasChroma := false
  pictType := PictType.I
  keyFrame := false
  topFieldFirst := false
  interlacedFrame := false
  fieldPicture := false
  progress0 := -1
  progress1 := -1

/-- A pool slot holding nothing. -/
def emptySlot : Slot where
  frame := emptyFrame
  reference := 0
  needsRealloc := false

/-- A concrete baseline context for the witnesses. -/
def ctx0 : Ctx where
  picture := fun _ => emptySlot
  picturePresent := true
  currentPicturePtr := none
  lastPicturePtr := none
  nextPicturePtr := none
  currentPicRef := false
  lastPicRef := false
  nextPicRef := false
  pict_type := PictType.I
  droppable := false
  codec_id := CodecId.OTHER
  out_format := OutFmt.FMT_OTHER
  mpeg_quant := false
  picture_structure := PicStruct.PICT_FRAME
  first_field := false
  progressive_frame := true
  progressive_sequence := true
  top_field_first := false
  width := 2
  height := 2
  chroma_x_shift := 1
  chroma_y_shift := 1
  mb_x := 0
  mb_y := 0
  mb_skipped := 0
  mb_height := 4
  mcsel := false
  alternate_scan := false
  quarter_sample := false
  mv_type := MvType.MV_TYPE_16X16
  mv := fun _ _ _ => 0
  coded_picture_number := 0
  bitstream_buffer_size := 0
  pp_time := 0
  context_initialized := true
  context_reinit := false
  linesize := 16
  uvlinesize := 8
  edgeEmuAllocated := true
  contextFrameAllocated := true
  hwaccel := false
  canStartFrame := true
  allocOk := true
  allocLuma := fun _ _ => 0
  allocCb := fun _ _ => 0
  allocCr := fun _ _ => 0
  allocHasChroma := true
  block_last_index := fun _ => -1
  idctAdd := fun d _ _ => d
  dctUnquantize := DequantKind.mpeg1
  imageCheckRet := 0
  pixFmtRet := 0
  pixFmtHShift := 1
  pixFmtVShift := 1
  initContextFrameRet := 0
  initDuplicateRet := 0
  threadContextReset := true

/-- The release condition exactly as claim C4 states it: not referenced
by any of the three roles, not flagged as a reference, and not pending
`needs_realloc` migration. -/
def releaseClaimCond (s : Ctx) (i : Nat) : Prop :=
  s.currentPicturePtr ≠ some i ∧ s.lastPicturePtr ≠ some i ∧
  s.nextPicturePtr ≠ some i ∧ (s.picture i).reference = 0 ∧
  (s.picture i).needsRealloc = false

instance (s : Ctx) (i : Nat) : Decidable (releaseClaimCond s i) := by
  unfold releaseClaimCond
  infer_instance

/-- A context whose slot 0 is an allocated buffer with no reference flag
but pending `needs_realloc` migration, and no role points at it. -/
def cex4 : Ctx :=
  { ctx0 with
    picture := fun i =>
      if i = 0 then
        { frame := { emptyFrame with allocated := true }, reference := 0,
          needsRealloc := true }
      else emptySlot }

/-- A concrete P-picture context on which `ff_mpv_frame_start` succeeds:
slot 0 is an allocated reference serving as `next`. -/
def c1ctx : Ctx :=
  { ctx0 with
    pict_type := PictType.P
    nextPicturePtr := some 0
    picture := fun i =>
      if i = 0 then
        { frame := { emptyFrame with allocated := true }, reference := 3,
          needsRealloc := false }
      else emptySlot }

/-- A B-picture context with a valid `last` reference in slot 0 and no
`next`: `ff_mpv_frame_start` synthesizes a dummy next picture for it.
Its allocator oracle hands out all-zero planes. -/
def cex2 : Ctx :=
  { ctx0 with
    pict_type := PictType.B
    lastPicturePtr := some 0
    picture := fun i =>
      if i = 0 then
        { frame := { emptyFrame with allocated := true }, reference := 3,
          needsRealloc := false }
      else emptySlot }

/-- A B-picture context with an empty pool: `ff_mpv_frame_start`
synthesizes both a dummy last and a dummy next picture. -/
def c2ctx : Ctx :=
  { ctx0 with pict_type := PictType.B }

/-- A frame-structured 16x16 macroblock context with `alternate_scan`
set: the claim's fallback clause would demand the last row, but the code
never consults `alternate_scan`. -/
def c6ctx : Ctx :=
  { ctx0 with alternate_scan := true }

/-- A context whose one-time structural initialization never ran. -/
def c10ctx : Ctx :=
  { ctx0 with context_initialized := false }

/-!  Basic facts about the steps of `ff_mpv_frame_start`. -/

theorem setSlot_picture (s : Ctx) (i : Nat) (sl : Slot) (j : Nat) :
    (setSlot s i sl).picture j = if j = i then sl else s.picture j := rfl

theorem releaseOldLast_proj (s : Ctx) :
    (releaseOldLast s).lastPicturePtr = s.lastPicturePtr ∧
    (releaseOldLast s).nextPicturePtr = s.nextPicturePtr ∧
    (releaseOldLast s).currentPicturePtr = s.currentPicturePtr ∧
    (releaseOldLast s).pict_type = s.pict_type ∧
    (releaseOldLast s).droppable = s.droppable := by
  unfold releaseOldLast
  cases h : s.lastPicturePtr with
  | none => exact ⟨h, rfl, rfl, rfl, rfl⟩
  | some l =>
    simp only [h]
    split
    · exact ⟨h, rfl, rfl, rfl, rfl⟩
    · exact ⟨h, rfl, rfl, rfl, rfl⟩

theorem releaseNonRefLoop_proj (s : Ctx) (n : Nat) :
    (releaseNonRefLoop s n).lastPicturePtr = s.lastPicturePtr ∧
    (releaseNonRefLoop s n).nextPicturePtr = s.nextPicturePtr ∧
    (releaseNonRefLoop s n).currentPicturePtr = s.currentPicturePtr ∧
    (releaseNonRefLoop s n).pict_type = s.pict_type ∧
    (releaseNonRefLoop s n).droppable = s.droppable := by
  induction n with
  | zero => exact ⟨rfl, rfl, rfl, rfl, rfl⟩
  | succ n ih =>
    simp only [releaseNonRefLoop]
    split
    · exact ih
    · exact ih

theorem unrefRoleRefs_lastPtr (s : Ctx) :
    (unrefRoleRefs s).lastPicturePtr = s.lastPicturePtr := rfl

theorem unrefRoleRefs_nextPtr (s : Ctx) :
    (unrefRoleRefs s).nextPicturePtr = s.nextPicturePtr := rfl

theorem unrefRoleRefs_currentPtr (s : Ctx) :
    (unrefRoleRefs s).currentPicturePtr = s.currentPicturePtr := rfl

theorem unrefRoleRefs_pictType (s : Ctx) :
    (unrefRoleRefs s).pict_type = s.pict_type := rfl

theorem unrefRoleRefs_droppable (s : Ctx) :
    (unrefRoleRefs s).droppable = s.droppable := rfl

theorem mpvFrameStartPrep_proj (s : Ctx) :
    (mpvFrameStartPrep s).lastPicturePtr = s.lastPicturePtr ∧
    (mpvFrameStartPrep s).nextPicturePtr = s.nextPicturePtr ∧
    (mpvFrameStartPrep s).currentPicturePtr = s.currentPicturePtr ∧
    (mpvFrameStartPrep s).pict_type = s.pict_type ∧
    (mpvFrameStartPrep s).droppable = s.droppable := by
  have h1 := releaseOldLast_proj { s with mb_skipped := 0 }
  have h2 := releaseNonRefLoop_proj (releaseOldLast { s with mb_skipped := 0 })
    MAX_PICTURE_COUNT
  simp only [mpvFrameStartPrep, releaseNonRef, unrefRoleRefs_lastPtr,
    unrefRoleRefs_nextPtr, unrefRoleRefs_currentPtr, unrefRoleRefs_pictType,
    unrefRoleRefs_droppable]
  rw [h2.1, h2.2.1, h2.2.2.1, h2.2.2.2.1, h2.2.2.2.2,
    h1.1, h1.2.1, h1.2.2.1, h1.2.2.2.1, h1.2.2.2.2]
  exact ⟨rfl, rfl, rfl, rfl, rfl⟩

theorem selectCurrent_some_proj (s u : Ctx) (h : selectCurrent s = some u) :
    u.lastPicturePtr = s.lastPicturePtr ∧
    u.nextPicturePtr = s.nextPicturePtr ∧
    u.pict_type = s.pict_type ∧
    u.droppable = s.droppable := by
  unfold selectCurrent at h
  rcases hp : (match s.currentPicturePtr with
    | some c =>
      if (s.picture c).frame.allocated = false then some c else findUnusedPicture s
    | none => findUnusedPicture s) with _ | p
  · rw [hp] at h
    exact absurd h (by simp)
  · rw [hp] at h
    dsimp only at h
    split at h
    · exact absurd h (by simp)
    · rw [Option.some_inj] at h
      subst h
      exact ⟨rfl, rfl, rfl, rfl⟩

theorem frame_start_some_afterRotate (s s' : Ctx)
    (hs : ff_mpv_frame_start s = some s') :
    (mpvFrameStartAfterRotate s).isSome := by
  unfold ff_mpv_frame_start at hs
  split at hs
  · exact absurd hs (by simp)
  · rcases h : mpvFrameStartAfterRotate s with _ | t
    · rw [h] at hs
      exact absurd hs (by simp)
    · simp [h]

/-!  The release pass of lines 288-295, characterized pointwise. -/

theorem releaseNonRefLoop_picture_ge (s : Ctx) (n : Nat) (i : Nat) (hi : n ≤ i) :
    (releaseNonRefLoop s n).picture i = s.picture i := by
  induction n with
  | zero => rfl
  | succ n ih =>
    have hin : n ≤ i := Nat.le_of_succ_le hi
    have hne : i ≠ n := Nat.ne_of_gt (Nat.lt_of_succ_le hi)
    simp only [releaseNonRefLoop]
    split
    · rw [setSlot_picture, if_neg hne]
      exact ih hin
    · exact ih hin

theorem releaseNonRefCond_congr (s t : Ctx) (i : Nat)
    (hpi : s.picture i = t.picture i)
    (hl : s.lastPicturePtr = t.lastPicturePtr)
    (hn : s.nextPicturePtr = t.nextPicturePtr) :
    releaseNonRefCond s i ↔ releaseNonRefCond t i := by
  unfold releaseNonRefCond
  rw [hpi, hl, hn]

theorem releaseNonRefLoop_picture_lt (s : Ctx) (n : Nat) (i : Nat) (hi : i < n) :
    (releaseNonRefLoop s n).picture i =
      if releaseNonRefCond s i then unrefSlot (s.picture i) else s.picture i := by
  induction n with
  | zero => exact absurd hi (Nat.not_lt_zero i)
  | succ n ih =>
    have hproj := releaseNonRefLoop_proj s n
    have hcond : releaseNonRefCond (releaseNonRefLoop s n) n ↔ releaseNonRefCond s n :=
      releaseNonRefCond_congr _ _ n (releaseNonRefLoop_picture_ge s n n (Nat.le_refl n))
        hproj.1 hproj.2.1
    rcases Nat.lt_or_ge i n with hlt | hge
    · have hne : i ≠ n := Nat.ne_of_lt hlt
      simp only [releaseNonRefLoop]
      split
      · rw [setSlot_picture, if_neg hne]
        exact ih hlt
      · exact ih hlt
    · have hieq : i = n := Nat.le_antisymm (Nat.lt_succ_iff.mp hi) hge
      subst hieq
      simp only [releaseNonRefLoop]
      by_cases hc : releaseNonRefCond s i
      · rw [if_pos (hcond.mpr hc), setSlot_picture, if_pos rfl,
          releaseNonRefLoop_picture_ge s i i (Nat.le_refl i), if_pos hc]
      · rw [if_neg (fun h => hc (hcond.mp h)),
          releaseNonRefLoop_picture_ge s i i (Nat.le_refl i), if_neg hc]

/-- C4 (amended): the release pass at the start of a frame releases
exactly those pool slots whose buffer either carries no reference flag at
all, or is neither the `last` nor the `next` role and is not pending
`needs_realloc` migration; every other slot is left untouched.  (The
current role plays no part in the condition.) -/
theorem release_pass_characterization_C4 (s : Ctx) (i : Nat)
    (hi : i < MAX_PICTURE_COUNT) :
    (releaseNonRef s).picture i =
      (if releaseNonRefCond s i then unrefSlot (s.picture i) else s.picture i) ∧
    (releaseNonRef s).lastPicturePtr = s.lastPicturePtr ∧
    (releaseNonRef s).nextPicturePtr = s.nextPicturePtr ∧
    (releaseNonRef s).currentPicturePtr = s.currentPicturePtr := by
  have hproj := releaseNonRefLoop_proj s MAX_PICTURE_COUNT
  simp only [releaseNonRef]
  exact ⟨releaseNonRefLoop_picture_lt s MAX_PICTURE_COUNT i hi,
    hproj.1, hproj.2.1, hproj.2.2.1⟩

/-- C4 counterexample: the pass releases slot 0 of `cex4` (its buffer is
gone afterwards) although the claim's condition excludes it from release
(it is pending `needs_realloc`), so the claim's "exactly those" is false
on the code: `!reference` alone suffices for release. -/
theorem release_pass_C4_counterexample :
    ¬ releaseClaimCond cex4 0 ∧
    (cex4.picture 0).frame.allocated = true ∧
    ((releaseNonRef cex4).picture 0).frame.allocated = false := by
  refine ⟨by decide, rfl, by decide⟩

theorem release_pass_characterization_C4_witness :
    0 < MAX_PICTURE_COUNT ∧
    ((releaseNonRef cex4).picture 0 =
      (if releaseNonRefCond cex4 0 then unrefSlot (cex4.picture 0)
       else cex4.picture 0) ∧
    (releaseNonRef cex4).lastPicturePtr = cex4.lastPicturePtr ∧
    (releaseNonRef cex4).nextPicturePtr = cex4.nextPicturePtr ∧
    (releaseNonRef cex4).currentPicturePtr = cex4.currentPicturePtr) :=
  ⟨by decide, release_pass_characterization_C4 cex4 0 (by decide)⟩

/-- C1: in every successful `ff_mpv_frame_start`, the rotation step of
lines 345-349 behaves as claimed: for a non-B picture, right after the
rotation the last-reference pointer equals the next-reference pointer's
value at call entry, and when the frame is not droppable the
next-reference pointer equals the newly selected current pointer; for a
B picture the rotation leaves both pointers at their entry values. -/
theorem frame_start_rotation_C1 (s s' : Ctx)
    (hs : ff_mpv_frame_start s = some s') :
    (s.pict_type ≠ PictType.B →
      (mpvFrameStartAfterRotate s).map Ctx.lastPicturePtr = some s.nextPicturePtr ∧
      (s.droppable = false →
        (mpvFrameStartAfterRotate s).map Ctx.nextPicturePtr =
          (mpvFrameStartAfterRotate s).map Ctx.currentPicturePtr)) ∧
    (s.pict_type = PictType.B →
      (mpvFrameStartAfterRotate s).map Ctx.lastPicturePtr = some s.lastPicturePtr ∧
      (mpvFrameStartAfterRotate s).map Ctx.nextPicturePtr = some s.nextPicturePtr) := by
  have hsome := frame_start_some_afterRotate s s' hs
  rcases ht : mpvFrameStartAfterRotate s with _ | t
  · rw [ht] at hsome
    exact absurd hsome (by simp)
  · have hsel : ∃ u, selectCurrent (mpvFrameStartPrep s) = some u ∧ t = rotateRoles u := by
      unfold mpvFrameStartAfterRotate at ht
      rcases hu : selectCurrent (mpvFrameStartPrep s) with _ | u
      · rw [hu] at ht
        exact absurd ht (by simp)
      · rw [hu] at ht
        simp only [Option.map] at ht
        exact ⟨u, rfl, (Option.some_inj.mp ht).symm⟩
    obtain ⟨u, hu, htu⟩ := hsel
    have hp := mpvFrameStartPrep_proj s
    have hup := selectCurrent_some_proj _ u hu
    have hlast : u.lastPicturePtr = s.lastPicturePtr := hup.1.trans hp.1
    have hnext : u.nextPicturePtr = s.nextPicturePtr := hup.2.1.trans hp.2.1
    have hpt : u.pict_type = s.pict_type := hup.2.2.1.trans hp.2.2.2.1
    have hdrop : u.droppable = s.droppable := hup.2.2.2.trans hp.2.2.2.2
    constructor
    · intro hnb
      have hub : u.pict_type ≠ PictType.B := by rw [hpt]; exact hnb
      constructor
      · simp only [Option.map, htu]
        unfold rotateRoles
        rw [if_pos hub]
        dsimp only
        split
        · rw [Option.some_inj]
          exact hnext
        · rw [Option.some_inj]
          exact hnext
      · intro hd
        have hud : u.droppable = false := by rw [hdrop]; exact hd
        simp only [Option.map, htu]
        unfold rotateRoles
        rw [if_pos hub, if_pos hud]
    · intro hb
      have hub : u.pict_type = PictType.B := by rw [hpt]; exact hb
      simp only [Option.map, htu]
      unfold rotateRoles
      rw [if_neg (by simp [hub])]
      exact ⟨Option.some_inj.mpr hlast, Option.some_inj.mpr hnext⟩

theorem frame_start_rotation_C1_witness :
    ff_mpv_frame_start c1ctx = some ((ff_mpv_frame_start c1ctx).getD c1ctx) ∧
    ((c1ctx.pict_type ≠ PictType.B →
      (mpvFrameStartAfterRotate c1ctx).map Ctx.lastPicturePtr =
        some c1ctx.nextPicturePtr ∧
      (c1ctx.droppable = false →
        (mpvFrameStartAfterRotate c1ctx).map Ctx.nextPicturePtr =
          (mpvFrameStartAfterRotate c1ctx).map Ctx.currentPicturePtr)) ∧
    (c1ctx.pict_type = PictType.B →
      (mpvFrameStartAfterRotate c1ctx).map Ctx.lastPicturePtr =
        some c1ctx.lastPicturePtr ∧
      (mpvFrameStartAfterRotate c1ctx).map Ctx.nextPicturePtr =
        some c1ctx.nextPicturePtr)) :=
  ⟨rfl, frame_start_rotation_C1 c1ctx ((ff_mpv_frame_start c1ctx).getD c1ctx) rfl⟩

/-!  Generic transport lemmas: a function of the context that is blind to
the fields a step updates is preserved by that step. -/

theorem releaseOldLast_congr {α : Sort _} (f : Ctx → α)
    (hset : ∀ t i sl, f (setSlot t i sl) = f t) (s : Ctx) :
    f (releaseOldLast s) = f s := by
  unfold releaseOldLast
  cases h : s.lastPicturePtr with
  | none => rfl
  | some l =>
    simp only [h]
    split
    · exact hset _ _ _
    · rfl

theorem releaseNonRefLoop_congr {α : Sort _} (f : Ctx → α)
    (hset : ∀ t i sl, f (setSlot t i sl) = f t) (s : Ctx) (n : Nat) :
    f (releaseNonRefLoop s n) = f s := by
  induction n with
  | zero => rfl
  | succ n ih =>
    simp only [releaseNonRefLoop]
    split
    · rw [hset]
      exact ih
    · exact ih

theorem prep_congr {α : Sort _} (f : Ctx → α)
    (hset : ∀ t i sl, f (setSlot t i sl) = f t)
    (hrr : ∀ t, f (unrefRoleRefs t) = f t)
    (hmb : ∀ t, f { t with mb_skipped := 0 } = f t) (s : Ctx) :
    f (mpvFrameStartPrep s) = f s := by
  unfold mpvFrameStartPrep releaseNonRef
  exact (hrr _).trans (((releaseNonRefLoop_congr f hset _ _).trans
    (releaseOldLast_congr f hset _)).trans (hmb s))

theorem selectCurrent_some_congr {α : Sort _} (f : Ctx → α)
    (hset : ∀ t i sl, f (setSlot t i sl) = f t)
    (hupd : ∀ t c k b, f { t with
      currentPicturePtr := c
      coded_picture_number := k
      currentPicRef := b } = f t)
    (s u : Ctx) (h : selectCurrent s = some u) : f u = f s := by
  unfold selectCurrent at h
  rcases hp : (match s.currentPicturePtr with
    | some c =>
      if (s.picture c).frame.allocated = false then some c else findUnusedPicture s
    | none => findUnusedPicture s) with _ | p
  · rw [hp] at h
    exact absurd h (by simp)
  · rw [hp] at h
    dsimp only at h
    split at h
    · exact absurd h (by simp)
    · rw [Option.some_inj] at h
      subst h
      exact (hupd _ _ _ _).trans (hset _ _ _)

theorem rotateRoles_congr {α : Sort _} (f : Ctx → α)
    (hl : ∀ t a, f { t with lastPicturePtr := a } = f t)
    (hn : ∀ t a, f { t with nextPicturePtr := a } = f t) (s : Ctx) :
    f (rotateRoles s) = f s := by
  unfold rotateRoles
  split
  · dsimp only
    split
    · exact (hn { s with lastPicturePtr := s.nextPicturePtr }
        s.currentPicturePtr).trans (hl s s.nextPicturePtr)
    · exact hl s s.nextPicturePtr
  · rfl

theorem afterRotate_decomp (s t : Ctx) (h : mpvFrameStartAfterRotate s = some t) :
    ∃ u, selectCurrent (mpvFrameStartPrep s) = some u ∧ t = rotateRoles u := by
  unfold mpvFrameStartAfterRotate at h
  rcases hu : selectCurrent (mpvFrameStartPrep s) with _ | u
  · rw [hu] at h
    exact absurd h (by simp)
  · rw [hu] at h
    simp only [Option.map] at h
    exact ⟨u, rfl, (Option.some_inj.mp h).symm⟩

theorem afterRotate_scalar {α : Sort _} (f : Ctx → α)
    (hset : ∀ t i sl, f (setSlot t i sl) = f t)
    (hrr : ∀ t, f (unrefRoleRefs t) = f t)
    (hmb : ∀ t, f { t with mb_skipped := 0 } = f t)
    (hupd : ∀ t c k b, f { t with
      currentPicturePtr := c
      coded_picture_number := k
      currentPicRef := b } = f t)
    (hl : ∀ t a, f { t with lastPicturePtr := a } = f t)
    (hn : ∀ t a, f { t with nextPicturePtr := a } = f t)
    (s t : Ctx) (h : mpvFrameStartAfterRotate s = some t) : f t = f s := by
  obtain ⟨u, hu, htu⟩ := afterRotate_decomp s t h
  subst htu
  rw [rotateRoles_congr f hl hn, selectCurrent_some_congr f hset hupd _ _ hu,
    prep_congr f hset hrr hmb]

theorem dummyLast_some_congr {α : Sort _} (f : Ctx → α)
    (hset : ∀ t i sl, f (setSlot t i sl) = f t)
    (hl : ∀ t a, f { t with lastPicturePtr := a } = f t)
    (s u : Ctx) (h : mpvDummyLast s = some u) : f u = f s := by
  unfold mpvDummyLast at h
  split at h
  · rcases hf : findUnusedPicture s with _ | idx
    · rw [hf] at h
      exact absurd h (by simp)
    · rw [hf] at h
      dsimp only at h
      split at h
      · exact absurd h (by simp)
      · rw [Option.some_inj] at h
        subst h
        exact (hset _ _ _).trans (hl _ _)
  · rw [Option.some_inj] at h
    subst h
    rfl

theorem dummyNext_some_congr {α : Sort _} (f : Ctx → α)
    (hset : ∀ t i sl, f (setSlot t i sl) = f t)
    (hn : ∀ t a, f { t with nextPicturePtr := a } = f t)
    (s u : Ctx) (h : mpvDummyNext s = some u) : f u = f s := by
  unfold mpvDummyNext at h
  split at h
  · rcases hf : findUnusedPicture s with _ | idx
    · rw [hf] at h
      exact absurd h (by simp)
    · rw [hf] at h
      dsimp only at h
      split at h
      · exact absurd h (by simp)
      · rw [Option.some_inj] at h
        subst h
        exact (hset _ _ _).trans (hn _ _)
  · rw [Option.some_inj] at h
    subst h
    rfl

theorem finish_picture (s : Ctx) : (mpvFrameStartFinish s).picture = s.picture := rfl

theorem finish_lastPtr (s : Ctx) :
    (mpvFrameStartFinish s).lastPicturePtr = s.lastPicturePtr := rfl

theorem finish_nextPtr (s : Ctx) :
    (mpvFrameStartFinish s).nextPicturePtr = s.nextPicturePtr := rfl

/-!  Decomposition of a successful `ff_mpv_frame_start` run. -/

theorem frame_start_decomp (s s' : Ctx) (hs : ff_mpv_frame_start s = some s') :
    ∃ t2 t3 t4, mpvFrameStartAfterRotate s = some t2 ∧
      mpvDummyLast t2 = some t3 ∧ mpvDummyNext t3 = some t4 ∧
      s' = mpvFrameStartFinish t4 := by
  unfold ff_mpv_frame_start at hs
  split at hs
  · exact absurd hs (by simp)
  · rw [Option.bind_eq_some] at hs
    obtain ⟨t2, h2, hs⟩ := hs
    rw [Option.bind_eq_some] at hs
    obtain ⟨t3, h3, hs⟩ := hs
    rw [Option.map_eq_some'] at hs
    obtain ⟨t4, h4, hs⟩ := hs
    exact ⟨t2, t3, t4, h2, h3, h4, hs.symm⟩

theorem findUnusedPicture_spec (s : Ctx) (i : Nat)
    (h : findUnusedPicture s = some i) :
    (s.picture i).frame.allocated = false := by
  unfold findUnusedPicture at h
  have := List.find?_some h
  simpa using this

theorem mpvDummyLast_needed_decomp (s u : Ctx) (h : mpvDummyLast s = some u)
    (hneed : dummyLastNeeded s = true) :
    ∃ idx, findUnusedPicture s = some idx ∧
      u = setSlot { s with lastPicturePtr := some idx } idx (dummyLastSlot s idx) := by
  unfold mpvDummyLast at h
  rw [if_pos hneed] at h
  rcases hf : findUnusedPicture s with _ | idx
  · rw [hf] at h
    exact absurd h (by simp)
  · rw [hf] at h
    dsimp only at h
    split at h
    · exact absurd h (by simp)
    · exact ⟨idx, rfl, (Option.some_inj.mp h).symm⟩

theorem mpvDummyNext_needed_decomp (s u : Ctx) (h : mpvDummyNext s = some u)
    (hneed : dummyNextNeeded s = true) :
    ∃ idx, findUnusedPicture s = some idx ∧
      u = setSlot { s with nextPicturePtr := some idx } idx (dummyNextSlot s idx) := by
  unfold mpvDummyNext at h
  rw [if_pos hneed] at h
  rcases hf : findUnusedPicture s with _ | idx
  · rw [hf] at h
    exact absurd h (by simp)
  · rw [hf] at h
    dsimp only at h
    split at h
    · exact absurd h (by simp)
    · exact ⟨idx, rfl, (Option.some_inj.mp h).symm⟩

theorem mpvDummyNext_not_needed (s u : Ctx) (h : mpvDummyNext s = some u)
    (hneed : dummyNextNeeded s = false) : u = s := by
  unfold mpvDummyNext at h
  rw [if_neg (by rw [hneed]; exact Bool.false_ne_true)] at h
  exact (Option.some_inj.mp h).symm

/-!  Contents of the synthesized dummy slots. -/

theorem dummyLastSlot_facts (s : Ctx) (idx : Nat) (hhw : s.hwaccel = false) :
    (dummyLastSlot s idx).frame.allocated = true ∧
    (dummyLastSlot s idx).reference = 3 ∧
    (dummyLastSlot s idx).frame.progress0 = INT_MAX ∧
    (dummyLastSlot s idx).frame.progress1 = INT_MAX ∧
    (∀ y x, y < s.height → x < s.width →
      (dummyLastSlot s idx).frame.luma y x =
        if s.codec_id = CodecId.FLV1 ∨ s.codec_id = CodecId.H263 then 16 else 128) ∧
    (s.allocHasChroma = true →
      ∀ y x, y < ceilRShift s.height s.chroma_y_shift →
        x < ceilRShift s.width s.chroma_x_shift →
        (dummyLastSlot s idx).frame.cb y x = 128 ∧
        (dummyLastSlot s idx).frame.cr y x = 128) := by
  unfold dummyLastSlot
  dsimp only
  rw [if_pos hhw]
  unfold reportProgress allocSlot dummyFillFrame
  dsimp only
  refine ⟨?_, rfl, rfl, rfl, ?_, ?_⟩
  · split <;> split <;> rfl
  · intro y x hy hx
    by_cases hc : s.codec_id = CodecId.FLV1 ∨ s.codec_id = CodecId.H263
    · rw [if_pos hc, if_pos hc]
      simp [fillRect, hy, hx]
    · rw [if_neg hc, if_neg hc]
      split <;> simp [fillRect, hy, hx]
  · intro hch y x hy hx
    rw [if_pos hch]
    refine ⟨?_, ?_⟩
    · split <;> simp [fillRect, hy, hx]
    · split <;> simp [fillRect, hy, hx]

theorem dummyNextSlot_facts (s : Ctx) (idx : Nat) :
    (dummyNextSlot s idx).frame.allocated = true ∧
    (dummyNextSlot s idx).reference = 3 ∧
    (dummyNextSlot s idx).frame.progress0 = INT_MAX ∧
    (dummyNextSlot s idx).frame.progress1 = INT_MAX ∧
    (dummyNextSlot s idx).frame.luma = s.allocLuma ∧
    (dummyNextSlot s idx).frame.cb = s.allocCb ∧
    (dummyNextSlot s idx).frame.cr = s.allocCr := by
  unfold dummyNextSlot reportProgress allocSlot
  exact ⟨rfl, rfl, rfl, rfl, rfl, rfl, rfl⟩

/-- C2 (amended): whenever `ff_mpv_frame_start` succeeds with software
decoding (no hwaccel) and, at the point of the check of lines 357-358, a
dummy `last` picture is required, the synthesized `last` is an allocated
`reference = 3` picture whose luma samples are `0x80` — `16` for the
legacy FLV1/H263 codecs — whose chroma samples (when the pixel format has
chroma planes) are `0x80`, and whose decode-progress counter is published
as `INT_MAX` on both fields.  When a dummy `next` is required for a B
picture (lines 409-429), it receives the same reference marking and
progress publication, but its planes are NOT filled: they keep the
allocator's indeterminate contents. -/
theorem dummy_frame_synthesis_C2 (s s' : Ctx)
    (hs : ff_mpv_frame_start s = some s') (hhw : s.hwaccel = false) :
    ((mpvFrameStartAfterRotate s).map dummyLastNeeded = some true →
      ∃ l, s'.lastPicturePtr = some l ∧
        (s'.picture l).frame.allocated = true ∧
        (s'.picture l).reference = 3 ∧
        (s'.picture l).frame.progress0 = INT_MAX ∧
        (s'.picture l).frame.progress1 = INT_MAX ∧
        (∀ y x, y < s.height → x < s.width →
          (s'.picture l).frame.luma y x =
            if s.codec_id = CodecId.FLV1 ∨ s.codec_id = CodecId.H263 then 16
            else 128) ∧
        (s.allocHasChroma = true →
          ∀ y x, y < ceilRShift s.height s.chroma_y_shift →
            x < ceilRShift s.width s.chroma_x_shift →
            (s'.picture l).frame.cb y x = 128 ∧
            (s'.picture l).frame.cr y x = 128)) ∧
    ((mpvFrameStartAfterDummyLast s).map dummyNextNeeded = some true →
      ∃ n, s'.nextPicturePtr = some n ∧
        (s'.picture n).frame.allocated = true ∧
        (s'.picture n).reference = 3 ∧
        (s'.picture n).frame.progress0 = INT_MAX ∧
        (s'.picture n).frame.progress1 = INT_MAX ∧
        (s'.picture n).frame.luma = s.allocLuma ∧
        (s'.picture n).frame.cb = s.allocCb ∧
        (s'.picture n).frame.cr = s.allocCr) := by
  obtain ⟨t2, t3, t4, h2, h3, h4, hfin⟩ := frame_start_decomp s s' hs
  have hw2 : t2.hwaccel = s.hwaccel :=
    afterRotate_scalar (fun c => c.hwaccel) (fun _ _ _ => rfl) (fun _ => rfl)
      (fun _ => rfl) (fun _ _ _ _ => rfl) (fun _ _ => rfl) (fun _ _ => rfl) s t2 h2
  have hcd2 : t2.codec_id = s.codec_id :=
    afterRotate_scalar (fun c => c.codec_id) (fun _ _ _ => rfl) (fun _ => rfl)
      (fun _ => rfl) (fun _ _ _ _ => rfl) (fun _ _ => rfl) (fun _ _ => rfl) s t2 h2
  have hwd2 : t2.width = s.width :=
    afterRotate_scalar (fun c => c.width) (fun _ _ _ => rfl) (fun _ => rfl)
      (fun _ => rfl) (fun _ _ _ _ => rfl) (fun _ _ => rfl) (fun _ _ => rfl) s t2 h2
  have hht2 : t2.height = s.height :=
    afterRotate_scalar (fun c => c.height) (fun _ _ _ => rfl) (fun _ => rfl)
      (fun _ => rfl) (fun _ _ _ _ => rfl) (fun _ _ => rfl) (fun _ _ => rfl) s t2 h2
  have hcx2 : t2.chroma_x_shift = s.chroma_x_shift :=
    afterRotate_scalar (fun c => c.chroma_x_shift) (fun _ _ _ => rfl) (fun _ => rfl)
      (fun _ => rfl) (fun _ _ _ _ => rfl) (fun _ _ => rfl) (fun _ _ => rfl) s t2 h2
  have hcy2 : t2.chroma_y_shift = s.chroma_y_shift :=
    afterRotate_scalar (fun c => c.chroma_y_shift) (fun _ _ _ => rfl) (fun _ => rfl)
      (fun _ => rfl) (fun _ _ _ _ => rfl) (fun _ _ => rfl) (fun _ _ => rfl) s t2 h2
  have hhc2 : t2.allocHasChroma = s.allocHasChroma :=
    afterRotate_scalar (fun c => c.allocHasChroma) (fun _ _ _ => rfl) (fun _ => rfl)
      (fun _ => rfl) (fun _ _ _ _ => rfl) (fun _ _ => rfl) (fun _ _ => rfl) s t2 h2
  constructor
  · intro hneed
    rw [h2] at hneed
    simp only [Option.map] at hneed
    have hneed2 : dummyLastNeeded t2 = true := Option.some_inj.mp hneed
    obtain ⟨l, hfind, ht3⟩ := mpvDummyLast_needed_decomp t2 t3 h3 hneed2
    have hfacts := dummyLastSlot_facts t2 l (hw2.trans hhw)
    rw [hwd2, hht2, hcd2, hcx2, hcy2, hhc2] at hfacts
    have ht3l : t3.picture l = dummyLastSlot t2 l := by
      rw [ht3, setSlot_picture, if_pos rfl]
    have ht3last : t3.lastPicturePtr = some l := by rw [ht3]; rfl
    have halloc : (t3.picture l).frame.allocated = true := by
      rw [ht3l]
      exact (dummyLastSlot_facts t2 l (hw2.trans hhw)).1
    have ht4l : t4.picture l = t3.picture l ∧ t4.lastPicturePtr = t3.lastPicturePtr := by
      by_cases hnn : dummyNextNeeded t3 = true
      · obtain ⟨n, hfindn, ht4⟩ := mpvDummyNext_needed_decomp t3 t4 h4 hnn
        have hnl : l ≠ n := by
          intro he
          have := findUnusedPicture_spec t3 n hfindn
          rw [← he, halloc] at this
          exact absurd this (by decide)
        constructor
        · rw [ht4, setSlot_picture, if_neg hnl]
        · rw [ht4]
          rfl
      · have hf : dummyNextNeeded t3 = false := by
          revert hnn
          cases dummyNextNeeded t3 <;> simp
        rw [mpvDummyNext_not_needed t3 t4 h4 hf]
        exact ⟨rfl, rfl⟩
    have hs'l : s'.picture l = dummyLastSlot t2 l := by
      rw [hfin, finish_picture, ht4l.1, ht3l]
    have hs'last : s'.lastPicturePtr = some l := by
      rw [hfin, finish_lastPtr, ht4l.2, ht3last]
    refine ⟨l, hs'last, ?_, ?_, ?_, ?_, ?_, ?_⟩
    · rw [hs'l]
      exact hfacts.1
    · rw [hs'l]
      exact hfacts.2.1
    · rw [hs'l]
      exact hfacts.2.2.1
    · rw [hs'l]
      exact hfacts.2.2.2.1
    · intro y x hy hx
      rw [hs'l]
      exact hfacts.2.2.2.2.1 y x hy hx
    · intro hch y x hy hx
      rw [hs'l]
      exact hfacts.2.2.2.2.2 hch y x hy hx
  · intro hneed
    have hadl : mpvFrameStartAfterDummyLast s = some t3 := by
      unfold mpvFrameStartAfterDummyLast
      rw [h2, Option.some_bind']
      exact h3
    rw [hadl] at hneed
    simp only [Option.map] at hneed
    have hneed2 : dummyNextNeeded t3 = true := Option.some_inj.mp hneed
    obtain ⟨n, hfindn, ht4⟩ := mpvDummyNext_needed_decomp t3 t4 h4 hneed2
    have hal3 : t3.allocLuma = s.allocLuma :=
      (dummyLast_some_congr (fun c => c.allocLuma) (fun _ _ _ => rfl)
        (fun _ _ => rfl) t2 t3 h3).trans
      (afterRotate_scalar (fun c => c.allocLuma) (fun _ _ _ => rfl) (fun _ => rfl)
        (fun _ => rfl) (fun _ _ _ _ => rfl) (fun _ _ => rfl) (fun _ _ => rfl) s t2 h2)
    have hab3 : t3.allocCb = s.allocCb :=
      (dummyLast_some_congr (fun c => c.allocCb) (fun _ _ _ => rfl)
        (fun _ _ => rfl) t2 t3 h3).trans
      (afterRotate_scalar (fun c => c.allocCb) (fun _ _ _ => rfl) (fun _ => rfl)
        (fun _ => rfl) (fun _ _ _ _ => rfl) (fun _ _ => rfl) (fun _ _ => rfl) s t2 h2)
    have har3 : t3.allocCr = s.allocCr :=
      (dummyLast_some_congr (fun c => c.allocCr) (fun _ _ _ => rfl)
        (fun _ _ => rfl) t2 t3 h3).trans
      (afterRotate_scalar (fun c => c.allocCr) (fun _ _ _ => rfl) (fun _ => rfl)
        (fun _ => rfl) (fun _ _ _ _ => rfl) (fun _ _ => rfl) (fun _ _ => rfl) s t2 h2)
    have hfacts := dummyNextSlot_facts t3 n
    rw [hal3, hab3, har3] at hfacts
    have ht4n : t4.picture n = dummyNextSlot t3 n := by
      rw [ht4, setSlot_picture, if_pos rfl]
    have ht4next : t4.nextPicturePtr = some n := by
      rw [ht4]
      rfl
    have hs'n : s'.picture n = dummyNextSlot t3 n := by
      rw [hfin, finish_picture, ht4n]
    have hs'next : s'.nextPicturePtr = some n := by
      rw [hfin, finish_nextPtr, ht4next]
    exact ⟨n, hs'next, by rw [hs'n]; exact hfacts.1, by rw [hs'n]; exact hfacts.2.1,
      by rw [hs'n]; exact hfacts.2.2.1, by rw [hs'n]; exact hfacts.2.2.2.1,
      by rw [hs'n]; exact hfacts.2.2.2.2.1, by rw [hs'n]; exact hfacts.2.2.2.2.2.1,
      by rw [hs'n]; exact hfacts.2.2.2.2.2.2⟩

/-- C2 counterexample: for the B-picture context `cex2` (valid `last`,
missing `next`, non-legacy codec, allocator handing out all-zero planes),
the successful `ff_mpv_frame_start` run synthesizes a dummy `next` whose
luma sample at (0,0) is `0`, not the mid-grey `0x80` (nor `16`) the claim
asserts for the synthesized reference: the next-dummy path performs no
fill. -/
theorem dummy_frame_synthesis_C2_counterexample :
    cex2.pict_type = PictType.B ∧
    cex2.nextPicturePtr = none ∧
    cex2.codec_id ≠ CodecId.FLV1 ∧
    cex2.codec_id ≠ CodecId.H263 ∧
    0 < cex2.height ∧
    0 < cex2.width ∧
    ((ff_mpv_frame_start cex2).bind fun t =>
      t.nextPicturePtr.map fun n => (t.picture n).frame.luma 0 0) = some 0 ∧
    (0 : Nat) ≠ 128 ∧ (0 : Nat) ≠ 16 := by
  refine ⟨rfl, rfl, by decide, by decide, by decide, by decide, by decide,
    by decide, by decide⟩

theorem dummy_frame_synthesis_C2_witness :
    ff_mpv_frame_start c2ctx = some ((ff_mpv_frame_start c2ctx).getD c2ctx) ∧
    c2ctx.hwaccel = false ∧
    (mpvFrameStartAfterRotate c2ctx).map dummyLastNeeded = some true ∧
    (mpvFrameStartAfterDummyLast c2ctx).map dummyNextNeeded = some true ∧
    (((mpvFrameStartAfterRotate c2ctx).map dummyLastNeeded = some true →
      ∃ l, ((ff_mpv_frame_start c2ctx).getD c2ctx).lastPicturePtr = some l ∧
        (((ff_mpv_frame_start c2ctx).getD c2ctx).picture l).frame.allocated = true ∧
        (((ff_mpv_frame_start c2ctx).getD c2ctx).picture l).reference = 3 ∧
        (((ff_mpv_frame_start c2ctx).getD c2ctx).picture l).frame.progress0 = INT_MAX ∧
        (((ff_mpv_frame_start c2ctx).getD c2ctx).picture l).frame.progress1 = INT_MAX ∧
        (∀ y x, y < c2ctx.height → x < c2ctx.width →
          (((ff_mpv_frame_start c2ctx).getD c2ctx).picture l).frame.luma y x =
            if c2ctx.codec_id = CodecId.FLV1 ∨ c2ctx.codec_id = CodecId.H263 then 16
            else 128) ∧
        (c2ctx.allocHasChroma = true →
          ∀ y x, y < ceilRShift c2ctx.height c2ctx.chroma_y_shift →
            x < ceilRShift c2ctx.width c2ctx.chroma_x_shift →
            (((ff_mpv_frame_start c2ctx).getD c2ctx).picture l).frame.cb y x = 128 ∧
            (((ff_mpv_frame_start c2ctx).getD c2ctx).picture l).frame.cr y x = 128)) ∧
    ((mpvFrameStartAfterDummyLast c2ctx).map dummyNextNeeded = some true →
      ∃ n, ((ff_mpv_frame_start c2ctx).getD c2ctx).nextPicturePtr = some n ∧
        (((ff_mpv_frame_start c2ctx).getD c2ctx).picture n).frame.allocated = true ∧
        (((ff_mpv_frame_start c2ctx).getD c2ctx).picture n).reference = 3 ∧
        (((ff_mpv_frame_start c2ctx).getD c2ctx).picture n).frame.progress0 = INT_MAX ∧
        (((ff_mpv_frame_start c2ctx).getD c2ctx).picture n).frame.progress1 = INT_MAX ∧
        (((ff_mpv_frame_start c2ctx).getD c2ctx).picture n).frame.luma = c2ctx.allocLuma ∧
        (((ff_mpv_frame_start c2ctx).getD c2ctx).picture n).frame.cb = c2ctx.allocCb ∧
        (((ff_mpv_frame_start c2ctx).getD c2ctx).picture n).frame.cr = c2ctx.allocCr)) :=
  ⟨rfl, rfl, by decide, by decide,
    dummy_frame_synthesis_C2 c2ctx ((ff_mpv_frame_start c2ctx).getD c2ctx) rfl rfl⟩

/-!  Facts about `ff_mpeg_flush`. -/

theorem unrefAllLoop_congr {α : Sort _} (f : Ctx → α)
    (hset : ∀ t i sl, f (setSlot t i sl) = f t) (s : Ctx) (n : Nat) :
    f (unrefAllLoop s n) = f s := by
  induction n with
  | zero => rfl
  | succ n ih =>
    simp only [unrefAllLoop]
    rw [hset]
    exact ih

theorem unrefAllLoop_picture_ge (s : Ctx) (n : Nat) (i : Nat) (hi : n ≤ i) :
    (unrefAllLoop s n).picture i = s.picture i := by
  induction n with
  | zero => rfl
  | succ n ih =>
    have hin : n ≤ i := Nat.le_of_succ_le hi
    have hne : i ≠ n := Nat.ne_of_gt (Nat.lt_of_succ_le hi)
    simp only [unrefAllLoop]
    rw [setSlot_picture, if_neg hne]
    exact ih hin

theorem unrefAllLoop_picture_lt (s : Ctx) (n : Nat) (i : Nat) (hi : i < n) :
    (unrefAllLoop s n).picture i = unrefSlot (s.picture i) := by
  induction n with
  | zero => exact absurd hi (Nat.not_lt_zero i)
  | succ n ih =>
    rcases Nat.lt_or_ge i n with hlt | hge
    · have hne : i ≠ n := Nat.ne_of_lt hlt
      simp only [unrefAllLoop]
      rw [setSlot_picture, if_neg hne]
      exact ih hlt
    · have hieq : i = n := Nat.le_antisymm (Nat.lt_succ_iff.mp hi) hge
      subst hieq
      simp only [unrefAllLoop]
      rw [setSlot_picture, if_pos rfl, unrefAllLoop_picture_ge s i i (Nat.le_refl i)]

/-- C8: on a context whose pool array is allocated, `ff_mpeg_flush` sets
all three role pointers to NULL, unreferences every pooled picture and
the three role-owned shared references, and zeroes the macroblock
position, the bitstream-buffer size and `pp_time`, while leaving the
size-dependent allocations (pool array, scratch, linesizes) exactly as
they were. -/
theorem flush_C8 (s : Ctx) (hp : s.picturePresent = true) :
    (ff_mpeg_flush s).currentPicturePtr = none ∧
    (ff_mpeg_flush s).lastPicturePtr = none ∧
    (ff_mpeg_flush s).nextPicturePtr = none ∧
    (∀ i, i < MAX_PICTURE_COUNT →
      (ff_mpeg_flush s).picture i = unrefSlot (s.picture i)) ∧
    (ff_mpeg_flush s).currentPicRef = false ∧
    (ff_mpeg_flush s).lastPicRef = false ∧
    (ff_mpeg_flush s).nextPicRef = false ∧
    (ff_mpeg_flush s).mb_x = 0 ∧
    (ff_mpeg_flush s).mb_y = 0 ∧
    (ff_mpeg_flush s).bitstream_buffer_size = 0 ∧
    (ff_mpeg_flush s).pp_time = 0 ∧
    (ff_mpeg_flush s).picturePresent = s.picturePresent ∧
    (ff_mpeg_flush s).linesize = s.linesize ∧
    (ff_mpeg_flush s).uvlinesize = s.uvlinesize ∧
    (ff_mpeg_flush s).edgeEmuAllocated = s.edgeEmuAllocated ∧
    (ff_mpeg_flush s).contextFrameAllocated = s.contextFrameAllocated := by
  unfold ff_mpeg_flush
  rw [if_neg (by rw [hp]; exact fun h => Bool.noConfusion h)]
  dsimp only
  refine ⟨rfl, rfl, rfl, ?_, rfl, rfl, rfl, rfl, rfl, rfl, rfl, ?_, ?_, ?_, ?_, ?_⟩
  · intro i hi
    show (unrefAllLoop s MAX_PICTURE_COUNT).picture i = unrefSlot (s.picture i)
    exact unrefAllLoop_picture_lt s MAX_PICTURE_COUNT i hi
  · exact unrefAllLoop_congr (fun c => c.picturePresent) (fun _ _ _ => rfl) s _
  · exact unrefAllLoop_congr (fun c => c.linesize) (fun _ _ _ => rfl) s _
  · exact unrefAllLoop_congr (fun c => c.uvlinesize) (fun _ _ _ => rfl) s _
  · exact unrefAllLoop_congr (fun c => c.edgeEmuAllocated) (fun _ _ _ => rfl) s _
  · exact unrefAllLoop_congr (fun c => c.contextFrameAllocated) (fun _ _ _ => rfl) s _

theorem flush_C8_witness :
    ctx0.picturePresent = true ∧
    ((ff_mpeg_flush ctx0).currentPicturePtr = none ∧
    (ff_mpeg_flush ctx0).lastPicturePtr = none ∧
    (ff_mpeg_flush ctx0).nextPicturePtr = none ∧
    (∀ i, i < MAX_PICTURE_COUNT →
      (ff_mpeg_flush ctx0).picture i = unrefSlot (ctx0.picture i)) ∧
    (ff_mpeg_flush ctx0).currentPicRef = false ∧
    (ff_mpeg_flush ctx0).lastPicRef = false ∧
    (ff_mpeg_flush ctx0).nextPicRef = false ∧
    (ff_mpeg_flush ctx0).mb_x = 0 ∧
    (ff_mpeg_flush ctx0).mb_y = 0 ∧
    (ff_mpeg_flush ctx0).bitstream_buffer_size = 0 ∧
    (ff_mpeg_flush ctx0).pp_time = 0 ∧
    (ff_mpeg_flush ctx0).picturePresent = ctx0.picturePresent ∧
    (ff_mpeg_flush ctx0).linesize = ctx0.linesize ∧
    (ff_mpeg_flush ctx0).uvlinesize = ctx0.uvlinesize ∧
    (ff_mpeg_flush ctx0).edgeEmuAllocated = ctx0.edgeEmuAllocated ∧
    (ff_mpeg_flush ctx0).contextFrameAllocated = ctx0.contextFrameAllocated) :=
  ⟨rfl, flush_C8 ctx0 rfl⟩

/-- C10: calling `ff_mpv_common_frame_size_change` on a context whose
one-time structural initialization never ran returns `AVERROR(EINVAL)`
immediately with the context byte-for-byte unchanged — in particular
before any freeing of frame-size-dependent state, any `needs_realloc`
marking, and any role-pointer clearing. -/
theorem frame_size_change_uninit_C10 (s : Ctx)
    (h : s.context_initialized = false) :
    ff_mpv_common_frame_size_change s = (AVERROR_EINVAL, s) := by
  unfold ff_mpv_common_frame_size_change
  rw [if_pos h]

theorem frame_size_change_uninit_C10_witness :
    c10ctx.context_initialized = false ∧
    ff_mpv_common_frame_size_change c10ctx = (AVERROR_EINVAL, c10ctx) :=
  ⟨rfl, frame_size_change_uninit_C10 c10ctx rfl⟩

/-- C3: when the three source role pointers address slots `i`, `j`, `k`
of the source pool, the transfer of lines 132-134 rebases each to the
same index inside the destination's own pool; with the two pools at
different base addresses (independently allocated), no rebased pointer is
a verbatim copy of the foreign pointer. -/
theorem rebase_roles_C3 (dst src : ThreadRoles) (i j k : Nat)
    (hi : i < MAX_PICTURE_COUNT) (hj : j < MAX_PICTURE_COUNT)
    (hk : k < MAX_PICTURE_COUNT)
    (hl : src.lastPicturePtr = some (src.pictureBase + i))
    (hc : src.currentPicturePtr = some (src.pictureBase + j))
    (hn : src.nextPicturePtr = some (src.pictureBase + k))
    (hdisj : dst.pictureBase ≠ src.pictureBase) :
    (updateRolePointers dst src).lastPicturePtr = some (dst.pictureBase + i) ∧
    (updateRolePointers dst src).currentPicturePtr = some (dst.pictureBase + j) ∧
    (updateRolePointers dst src).nextPicturePtr = some (dst.pictureBase + k) ∧
    (updateRolePointers dst src).lastPicturePtr ≠ src.lastPicturePtr ∧
    (updateRolePointers dst src).currentPicturePtr ≠ src.currentPicturePtr ∧
    (updateRolePointers dst src).nextPicturePtr ≠ src.nextPicturePtr := by
  have hmax : (MAX_PICTURE_COUNT : Int) = 36 := rfl
  have key : ∀ m : Nat, m < MAX_PICTURE_COUNT →
      REBASE_PICTURE (some (src.pictureBase + m)) dst.pictureBase src.pictureBase =
        some (dst.pictureBase + m) := by
    intro m hm
    unfold REBASE_PICTURE
    dsimp only
    rw [if_pos (by constructor <;> omega)]
    congr 1
    omega
  unfold updateRolePointers
  rw [hl, hc, hn]
  dsimp only
  rw [key i hi, key j hj, key k hk]
  refine ⟨rfl, rfl, rfl, ?_, ?_, ?_⟩ <;>
    · intro hcon
      rw [Option.some_inj] at hcon
      omega

theorem rebase_roles_C3_witness :
    (0 : Nat) < MAX_PICTURE_COUNT ∧
    (1 : Nat) < MAX_PICTURE_COUNT ∧
    (2 : Nat) < MAX_PICTURE_COUNT ∧
    (ThreadRoles.mk 1000 (some 1001) (some 1000) (some 1002)).lastPicturePtr =
      some (1000 + (0 : Nat)) ∧
    (ThreadRoles.mk 1000 (some 1001) (some 1000) (some 1002)).currentPicturePtr =
      some (1000 + (1 : Nat)) ∧
    (ThreadRoles.mk 1000 (some 1001) (some 1000) (some 1002)).nextPicturePtr =
      some (1000 + (2 : Nat)) ∧
    (2000 : Int) ≠ 1000 ∧
    ((updateRolePointers (ThreadRoles.mk 2000 none none none)
        (ThreadRoles.mk 1000 (some 1001) (some 1000) (some 1002))).lastPicturePtr =
      some (2000 + (0 : Nat)) ∧
    (updateRolePointers (ThreadRoles.mk 2000 none none none)
        (ThreadRoles.mk 1000 (some 1001) (some 1000) (some 1002))).currentPicturePtr =
      some (2000 + (1 : Nat)) ∧
    (updateRolePointers (ThreadRoles.mk 2000 none none none)
        (ThreadRoles.mk 1000 (some 1001) (some 1000) (some 1002))).nextPicturePtr =
      some (2000 + (2 : Nat)) ∧
    (updateRolePointers (ThreadRoles.mk 2000 none none none)
        (ThreadRoles.mk 1000 (some 1001) (some 1000) (some 1002))).lastPicturePtr ≠
      (ThreadRoles.mk 1000 (some 1001) (some 1000) (some 1002)).lastPicturePtr ∧
    (updateRolePointers (ThreadRoles.mk 2000 none none none)
        (ThreadRoles.mk 1000 (some 1001) (some 1000) (some 1002))).currentPicturePtr ≠
      (ThreadRoles.mk 1000 (some 1001) (some 1000) (some 1002)).currentPicturePtr ∧
    (updateRolePointers (ThreadRoles.mk 2000 none none none)
        (ThreadRoles.mk 1000 (some 1001) (some 1000) (some 1002))).nextPicturePtr ≠
      (ThreadRoles.mk 1000 (some 1001) (some 1000) (some 1002)).nextPicturePtr) :=
  ⟨by decide, by decide, by decide, by decide, by decide, by decide, by decide,
    rebase_roles_C3 (ThreadRoles.mk 2000 none none none)
      (ThreadRoles.mk 1000 (some 1001) (some 1000) (some 1002)) 0 1 2
      (by decide) (by decide) (by decide) (by decide) (by decide) (by decide)
      (by decide)⟩

/-- C9: after the role-pointer transfer, every destination role pointer
is NULL or addresses a slot of the destination's own pool; a NULL source
pointer maps to NULL, and a source pointer outside the source pool's
`MAX_PICTURE_COUNT` slots maps to NULL rather than being copied
verbatim. -/
theorem rebase_membership_C9 (dst src : ThreadRoles) :
    (∀ role ∈ [(updateRolePointers dst src).currentPicturePtr,
               (updateRolePointers dst src).lastPicturePtr,
               (updateRolePointers dst src).nextPicturePtr],
      role = none ∨ ∃ i : Nat, i < MAX_PICTURE_COUNT ∧
        role = some (dst.pictureBase + i)) ∧
    REBASE_PICTURE none dst.pictureBase src.pictureBase = none ∧
    (∀ p : Int, p < src.pictureBase ∨ src.pictureBase + MAX_PICTURE_COUNT ≤ p →
      REBASE_PICTURE (some p) dst.pictureBase src.pictureBase = none) := by
  have hgen : ∀ pic : Option Int,
      REBASE_PICTURE pic dst.pictureBase src.pictureBase = none ∨
      ∃ i : Nat, i < MAX_PICTURE_COUNT ∧
        REBASE_PICTURE pic dst.pictureBase src.pictureBase =
          some (dst.pictureBase + i) := by
    intro pic
    unfold REBASE_PICTURE
    match pic with
    | none => exact Or.inl rfl
    | some p =>
      dsimp only
      by_cases hin : src.pictureBase ≤ p ∧ p < src.pictureBase + MAX_PICTURE_COUNT
      · refine Or.inr ⟨(p - src.pictureBase).toNat, ?_, ?_⟩
        · have : (MAX_PICTURE_COUNT : Int) = 36 := rfl
          omega
        · rw [if_pos hin]
          congr 1
          omega
      · rw [if_neg hin]
        exact Or.inl rfl
  refine ⟨?_, rfl, ?_⟩
  · intro role hrole
    simp only [List.mem_cons, List.mem_singleton] at hrole
    rcases hrole with h | h | h | h
    · rw [h]
      exact hgen src.currentPicturePtr
    · rw [h]
      exact hgen src.lastPicturePtr
    · rw [h]
      exact hgen src.nextPicturePtr
    · cases h
  · intro p hp
    unfold REBASE_PICTURE
    dsimp only
    rw [if_neg (by have : (MAX_PICTURE_COUNT : Int) = 36 := rfl; omega)]

theorem rebase_membership_C9_witness :
    ((∀ role ∈ [(updateRolePointers (ThreadRoles.mk 2000 none none none)
        (ThreadRoles.mk 1000 (some 500) none (some 1035))).currentPicturePtr,
        (updateRolePointers (ThreadRoles.mk 2000 none none none)
          (ThreadRoles.mk 1000 (some 500) none (some 1035))).lastPicturePtr,
        (updateRolePointers (ThreadRoles.mk 2000 none none none)
          (ThreadRoles.mk 1000 (some 500) none (some 1035))).nextPicturePtr],
      role = none ∨ ∃ i : Nat, i < MAX_PICTURE_COUNT ∧
        role = some ((2000 : Int) + i)) ∧
    REBASE_PICTURE none 2000 1000 = none ∧
    (∀ p : Int, p < 1000 ∨ (1000 : Int) + MAX_PICTURE_COUNT ≤ p →
      REBASE_PICTURE (some p) 2000 1000 = none)) ∧
    REBASE_PICTURE (some 500) 2000 1000 = none :=
  ⟨rebase_membership_C9 (ThreadRoles.mk 2000 none none none)
    (ThreadRoles.mk 1000 (some 500) none (some 1035)), by decide⟩

/-- C7: macroblock reconstruction via `add_dct` leaves every destination
sample byte-for-byte equal to the motion-compensated prediction when the
block's last-nonzero-coefficient index is negative, and hands the
destination to the external IDCT-add kernel (adding the residual in
place) exactly when that index is non-negative. -/
theorem add_dct_zero_residual_C7 (s : Ctx) (block : Fin 64 → Int) (i : Nat)
    (dest : Nat → Nat → Nat) (line_size : Int) :
    (s.block_last_index i < 0 →
      ∀ y x, add_dct s block i dest line_size y x = dest y x) ∧
    (0 ≤ s.block_last_index i →
      add_dct s block i dest line_size = s.idctAdd dest line_size block) := by
  constructor
  · intro h y x
    unfold add_dct
    rw [if_neg (by omega)]
  · intro h
    unfold add_dct
    rw [if_pos h]

theorem add_dct_zero_residual_C7_witness :
    ctx0.block_last_index 0 < 0 ∧
    (∀ y x, add_dct ctx0 (fun _ => 0) 0 (fun _ _ => 7) 8 y x = (fun _ _ => (7 : Nat)) y x) :=
  ⟨by decide,
    (add_dct_zero_residual_C7 ctx0 (fun _ => 0) 0 (fun _ _ => 7) 8).1 (by decide)⟩

/-!  `lowest_referenced_row`: the fold over the vertical components
equals the largest-absolute-displacement formula. -/

set_option maxHeartbeats 2000000 in
theorem lowRowCore_eq_maxAbs (s : Ctx) (dir : Nat) (mvs : Nat)
    (hm : mvs = 1 ∨ mvs = 2 ∨ mvs = 4)
    (hmv : ∀ i, i < 4 → -(2 ^ 30) ≤ s.mv dir i 1 ∧ s.mv dir i 1 ≤ 2 ^ 30) :
    lowRowCore s dir mvs =
      av_clip ((s.mb_y : Int) +
        (maxAbsMy s dir mvs * 2 ^ (if s.quarter_sample = true then 0 else 1) + 63) / 64)
        0 (s.mb_height - 1) := by
  have h0 := hmv 0 (by omega)
  have h1 := hmv 1 (by omega)
  have h2 := hmv 2 (by omega)
  have h3 := hmv 3 (by omega)
  unfold lowRowCore maxAbsMy
  rcases hm with rfl | rfl | rfl
  · have hr : List.range 1 = [0] := rfl
    rw [hr]
    dsimp only [List.map, List.foldl]
    have he : max (-(min INT_MAX (s.mv dir 0 1))) (max INT_MIN (s.mv dir 0 1)) =
        max 0 (intAbs (s.mv dir 0 1)) := by
      simp only [INT_MIN, INT_MAX, intAbs]
      omega
    rw [he]
  · have hr : List.range 2 = [0, 1] := rfl
    rw [hr]
    dsimp only [List.map, List.foldl]
    have he : max (-(min (min INT_MAX (s.mv dir 0 1)) (s.mv dir 1 1)))
        (max (max INT_MIN (s.mv dir 0 1)) (s.mv dir 1 1)) =
        max (max 0 (intAbs (s.mv dir 0 1))) (intAbs (s.mv dir 1 1)) := by
      simp only [INT_MIN, INT_MAX, intAbs]
      omega
    rw [he]
  · have hr : List.range 4 = [0, 1, 2, 3] := rfl
    rw [hr]
    dsimp only [List.map, List.foldl]
    have he : max (-(min (min (min (min INT_MAX (s.mv dir 0 1)) (s.mv dir 1 1))
          (s.mv dir 2 1)) (s.mv dir 3 1)))
        (max (max (max (max INT_MIN (s.mv dir 0 1)) (s.mv dir 1 1))
          (s.mv dir 2 1)) (s.mv dir 3 1)) =
        max (max (max (max 0 (intAbs (s.mv dir 0 1))) (intAbs (s.mv dir 1 1)))
          (intAbs (s.mv dir 2 1))) (intAbs (s.mv dir 3 1)) := by
      simp only [INT_MIN, INT_MAX, intAbs]
      omega
    rw [he]

/-- C6 (amended): `lowest_referenced_row` returns the last macroblock row
(`mb_height - 1`) exactly for field-structured pictures, global-motion
(`mcsel`) macroblocks, and geometries other than 16x16 / 16x8 / 8x8 —
`alternate_scan` plays no part in the fallback; for the handled
geometries in frame pictures it returns the current macroblock row plus
the largest absolute vertical displacement converted (with quarter-pel
scaling and a ceiling division by 64) to rows, clipped to
`[0, mb_height - 1]`. -/
theorem lowest_referenced_row_C6 (s : Ctx) (dir : Nat)
    (hmv : ∀ i, i < 4 → -(2 ^ 30) ≤ s.mv dir i 1 ∧ s.mv dir i 1 ≤ 2 ^ 30) :
    lowest_referenced_row s dir =
      if s.picture_structure ≠ PicStruct.PICT_FRAME ∨ s.mcsel = true then
        s.mb_height - 1
      else
        match s.mv_type with
        | MvType.MV_TYPE_16X16 =>
          av_clip ((s.mb_y : Int) +
            (maxAbsMy s dir 1 * 2 ^ (if s.quarter_sample = true then 0 else 1) + 63) / 64)
            0 (s.mb_height - 1)
        | MvType.MV_TYPE_16X8 =>
          av_clip ((s.mb_y : Int) +
            (maxAbsMy s dir 2 * 2 ^ (if s.quarter_sample = true then 0 else 1) + 63) / 64)
            0 (s.mb_height - 1)
        | MvType.MV_TYPE_8X8 =>
          av_clip ((s.mb_y : Int) +
            (maxAbsMy s dir 4 * 2 ^ (if s.quarter_sample = true then 0 else 1) + 63) / 64)
            0 (s.mb_height - 1)
        | _ => s.mb_height - 1 := by
  unfold lowest_referenced_row
  split
  · rfl
  · cases hmt : s.mv_type
    case MV_TYPE_16X16 => exact lowRowCore_eq_maxAbs s dir 1 (by omega) hmv
    case MV_TYPE_16X8 => exact lowRowCore_eq_maxAbs s dir 2 (by omega) hmv
    case MV_TYPE_8X8 => exact lowRowCore_eq_maxAbs s dir 4 (by omega) hmv
    case MV_TYPE_FIELD => rfl
    case MV_TYPE_DMV => rfl

/-- C6 counterexample: `c6ctx` is a frame-structured, non-global-motion
16x16 macroblock with `alternate_scan` set and zero motion; the claim's
fallback clause ("not a plain non-alternate-scan case") demands the last
row `mb_height - 1 = 3`, but the code ignores `alternate_scan` and
returns the tight row `0`. -/
theorem lowest_referenced_row_C6_counterexample :
    c6ctx.alternate_scan = true ∧
    c6ctx.picture_structure = PicStruct.PICT_FRAME ∧
    c6ctx.mcsel = false ∧
    c6ctx.mv_type = MvType.MV_TYPE_16X16 ∧
    lowest_referenced_row c6ctx 0 = 0 ∧
    c6ctx.mb_height - 1 = 3 ∧
    lowest_referenced_row c6ctx 0 ≠ c6ctx.mb_height - 1 := by
  refine ⟨rfl, rfl, rfl, rfl, by decide, by decide, by decide⟩

theorem lowest_referenced_row_C6_witness :
    (∀ i, i < 4 → -(2 ^ 30) ≤ c6ctx.mv 0 i 1 ∧ c6ctx.mv 0 i 1 ≤ 2 ^ 30) ∧
    lowest_referenced_row c6ctx 0 =
      (if c6ctx.picture_structure ≠ PicStruct.PICT_FRAME ∨ c6ctx.mcsel = true then
        c6ctx.mb_height - 1
      else
        match c6ctx.mv_type with
        | MvType.MV_TYPE_16X16 =>
          av_clip ((c6ctx.mb_y : Int) +
            (maxAbsMy c6ctx 0 1 * 2 ^ (if c6ctx.quarter_sample = true then 0 else 1) + 63) / 64)
            0 (c6ctx.mb_height - 1)
        | MvType.MV_TYPE_16X8 =>
          av_clip ((c6ctx.mb_y : Int) +
            (maxAbsMy c6ctx 0 2 * 2 ^ (if c6ctx.quarter_sample = true then 0 else 1) + 63) / 64)
            0 (c6ctx.mb_height - 1)
        | MvType.MV_TYPE_8X8 =>
          av_clip ((c6ctx.mb_y : Int) +
            (maxAbsMy c6ctx 0 4 * 2 ^ (if c6ctx.quarter_sample = true then 0 else 1) + 63) / 64)
            0 (c6ctx.mb_height - 1)
        | _ => c6ctx.mb_height - 1) :=
  ⟨by decide, lowest_referenced_row_C6 c6ctx 0 (by decide)⟩

/-!  The lowres edge tests, characterized. -/

theorem nz_range (x : Int) : 0 ≤ nz x ∧ nz x ≤ 1 := by
  unfold nz
  split <;> omega

/-- The comparison `(unsigned)src > FFMAX(edge - margin - size, 0)` is
exactly "the interval `[src, src + size + margin)` leaves `[0, edge)`",
provided the picture region can hold one block (`size + margin ≤ edge`)
and all quantities are genuine 32-bit `int` values. -/
theorem emu_test_exact (srcv m w E : Int)
    (hm : 0 ≤ m ∧ m ≤ 1) (hw : 0 ≤ w) (hfit : 0 ≤ E - m - w) (hE : E < 2 ^ 31)
    (hs : -(2 ^ 31) ≤ srcv ∧ srcv < 2 ^ 31) :
    (toU32 srcv > max (E - m - w) 0) ↔ (srcv < 0 ∨ srcv + w + m > E) := by
  unfold toU32
  by_cases hsv : srcv < 0
  · have hmod : srcv % 4294967296 = srcv + 4294967296 := by omega
    rw [hmod]
    rcases le_total (E - m - w) 0 with hc | hc
    · rw [max_eq_right hc]
      omega
    · rw [max_eq_left hc]
      omega
  · have hmod : srcv % 4294967296 = srcv := by omega
    rw [hmod]
    rcases le_total (E - m - w) 0 with hc | hc
    · rw [max_eq_right hc]
      omega
    · rw [max_eq_left hc]
      omega

theorem mpegBlockS_nonneg (a : MpegMotionLowresArgs) : 0 ≤ mpegBlockS a := by
  unfold mpegBlockS sar
  positivity

theorem c4mvBlockS_nonneg (a : Chroma4mvLowresArgs) : 0 ≤ c4mvBlockS a := by
  unfold c4mvBlockS sar
  positivity

theorem hpel_emu_exact (a : HpelLowresArgs)
    (hw : 0 ≤ a.w) (hh : 0 ≤ a.h)
    (h1 : 0 ≤ a.h_edge_pos - nz (hpelSX a) - a.w)
    (h2 : 0 ≤ sar a.v_edge_pos (fbShift a.field_based) - nz (hpelSY a) - a.h)
    (h3 : a.h_edge_pos < 2 ^ 31)
    (h4 : sar a.v_edge_pos (fbShift a.field_based) < 2 ^ 31)
    (h5 : -(2 ^ 31) ≤ hpelSrcX a ∧ hpelSrcX a < 2 ^ 31)
    (h6 : -(2 ^ 31) ≤ hpelSrcY a ∧ hpelSrcY a < 2 ^ 31) :
    hpelEmuCond a ↔ hpelRectOOB a := by
  unfold hpelEmuCond hpelRectOOB
  rw [emu_test_exact _ _ _ _ (nz_range _) hw h1 h3 h5,
    emu_test_exact _ _ _ _ (nz_range _) hh h2 h4 h6]
  tauto

theorem mpeg_emu_exact (a : MpegMotionLowresArgs)
    (hh : 0 ≤ a.h)
    (h1 : 0 ≤ mpegEdgeH a - nz (mpegSX a) - 2 * mpegBlockS a)
    (h2 : 0 ≤ sar (mpegEdgeV a) (fbShift a.field_based) - nz (mpegSY a) - a.h)
    (h3 : mpegEdgeH a < 2 ^ 31)
    (h4 : sar (mpegEdgeV a) (fbShift a.field_based) < 2 ^ 31)
    (h5 : -(2 ^ 31) ≤ mpegSrcX a ∧ mpegSrcX a < 2 ^ 31)
    (h6 : -(2 ^ 31) ≤ mpegSrcY a ∧ mpegSrcY a < 2 ^ 31) :
    mpegEmuCond a ↔ (mpegLumaRectOOB a ∨ mpegUVSrcY a < 0) := by
  unfold mpegEmuCond mpegLumaRectOOB
  rw [emu_test_exact _ _ _ _ (nz_range _)
      (by have := mpegBlockS_nonneg a; omega) h1 h3 h5,
    emu_test_exact _ _ _ _ (nz_range _) hh h2 h4 h6]
  tauto

theorem c4mv_emu_exact (a : Chroma4mvLowresArgs)
    (h1 : 0 ≤ c4mvEdgeH a - nz (c4mvSX a) - c4mvBlockS a)
    (h2 : 0 ≤ c4mvEdgeV a - nz (c4mvSY a) - c4mvBlockS a)
    (h3 : c4mvEdgeH a < 2 ^ 31)
    (h4 : c4mvEdgeV a < 2 ^ 31)
    (h5 : -(2 ^ 31) ≤ c4mvSrcX a ∧ c4mvSrcX a < 2 ^ 31)
    (h6 : -(2 ^ 31) ≤ c4mvSrcY a ∧ c4mvSrcY a < 2 ^ 31) :
    c4mvEmuCond a ↔ c4mvRectOOB a := by
  unfold c4mvEmuCond c4mvRectOOB
  rw [emu_test_exact _ _ _ _ (nz_range _) (c4mvBlockS_nonneg a) h1 h3 h5,
    emu_test_exact _ _ _ _ (nz_range _) (c4mvBlockS_nonneg a) h2 h4 h6]
  tauto

/-- C5 (amended): for pictures that can hold one block and genuine
32-bit coordinates, (a) the `hpel_motion_lowres` test fires iff the
block's own (luma) source rectangle — block plus one-sample margins,
doubled vertically for field-based blocks — exceeds the legal bounds on
some side; (b) the single `mpeg_motion_lowres` test fires iff the luma
rectangle exceeds its bounds or the chroma source row is negative, and
when it fires the chroma planes are emulated along with luma (even when
their own rectangle is in bounds); (c) the separate
`chroma_4mv_motion_lowres` test fires iff the chroma rectangle exceeds
the chroma bounds; and (d) a rectangle exactly at the picture boundary
with zero margin never fires the `hpel` test, while one sample beyond
always does. -/
theorem lowres_edge_emulation_C5
    (a : HpelLowresArgs) (b : MpegMotionLowresArgs) (c : Chroma4mvLowresArgs)
    (ha0 : 0 ≤ a.w) (ha7 : 0 ≤ a.h) (hb0 : 0 ≤ b.h)
    (ha1 : 0 ≤ a.h_edge_pos - nz (hpelSX a) - a.w)
    (ha2 : 0 ≤ sar a.v_edge_pos (fbShift a.field_based) - nz (hpelSY a) - a.h)
    (ha3 : a.h_edge_pos < 2 ^ 31)
    (ha4 : sar a.v_edge_pos (fbShift a.field_based) < 2 ^ 31)
    (ha5 : -(2 ^ 31) ≤ hpelSrcX a ∧ hpelSrcX a < 2 ^ 31)
    (ha6 : -(2 ^ 31) ≤ hpelSrcY a ∧ hpelSrcY a < 2 ^ 31)
    (hb1 : 0 ≤ mpegEdgeH b - nz (mpegSX b) - 2 * mpegBlockS b)
    (hb2 : 0 ≤ sar (mpegEdgeV b) (fbShift b.field_based) - nz (mpegSY b) - b.h)
    (hb3 : mpegEdgeH b < 2 ^ 31)
    (hb4 : sar (mpegEdgeV b) (fbShift b.field_based) < 2 ^ 31)
    (hb5 : -(2 ^ 31) ≤ mpegSrcX b ∧ mpegSrcX b < 2 ^ 31)
    (hb6 : -(2 ^ 31) ≤ mpegSrcY b ∧ mpegSrcY b < 2 ^ 31)
    (hc1 : 0 ≤ c4mvEdgeH c - nz (c4mvSX c) - c4mvBlockS c)
    (hc2 : 0 ≤ c4mvEdgeV c - nz (c4mvSY c) - c4mvBlockS c)
    (hc3 : c4mvEdgeH c < 2 ^ 31)
    (hc4 : c4mvEdgeV c < 2 ^ 31)
    (hc5 : -(2 ^ 31) ≤ c4mvSrcX c ∧ c4mvSrcX c < 2 ^ 31)
    (hc6 : -(2 ^ 31) ≤ c4mvSrcY c ∧ c4mvSrcY c < 2 ^ 31) :
    (hpelEmuCond a ↔ hpelRectOOB a) ∧
    (mpegEmuCond b ↔ (mpegLumaRectOOB b ∨ mpegUVSrcY b < 0)) ∧
    (mpegChromaEmulated b ↔ (mpegEmuCond b ∧ b.gray = false)) ∧
    (c4mvEmuCond c ↔ c4mvRectOOB c) ∧
    (0 ≤ hpelSrcX a → 0 ≤ hpelSrcY a →
      hpelSrcX a + a.w + nz (hpelSX a) ≤ a.h_edge_pos →
      hpelSrcY a + a.h + nz (hpelSY a) ≤ sar a.v_edge_pos (fbShift a.field_based) →
      ¬hpelEmuCond a) ∧
    (hpelSrcX a + a.w + nz (hpelSX a) = a.h_edge_pos + 1 → hpelEmuCond a) := by
  have hiff := hpel_emu_exact a ha0 ha7 ha1 ha2 ha3 ha4 ha5 ha6
  refine ⟨hiff, mpeg_emu_exact b hb0 hb1 hb2 hb3 hb4 hb5 hb6, Iff.rfl,
    c4mv_emu_exact c hc1 hc2 hc3 hc4 hc5 hc6, ?_, ?_⟩
  · intro hx hy hxe hye
    rw [hiff]
    unfold hpelRectOOB
    omega
  · intro hbeyond
    rw [hiff]
    unfold hpelRectOOB
    omega

/-- C5 counterexample: at `cex5` (4:2:0, lowres 1, left picture edge,
motion `(-1,0)`) the `mpeg_motion_lowres` test fires on the luma
rectangle and both chroma planes are routed through the edge emulator,
although the chroma source rectangle lies entirely inside the chroma
bounds: the claim's per-plane "invoked iff its required source rectangle
exceeds the bounds" is false for the chroma planes, whose emulation is
gated by the luma test alone. -/
theorem lowres_edge_emulation_C5_counterexample :
    mpegChromaEmulated cex5 ∧
    ¬ mpegChromaRectOOB cex5 ∧
    mpegLumaRectOOB cex5 := by
  refine ⟨by decide, by decide, by decide⟩

theorem lowres_edge_emulation_C5_witness :
    (0 ≤ c5hpel.h_edge_pos - nz (hpelSX c5hpel) - c5hpel.w) ∧
    ((hpelEmuCond c5hpel ↔ hpelRectOOB c5hpel) ∧
    (mpegEmuCond cex5 ↔ (mpegLumaRectOOB cex5 ∨ mpegUVSrcY cex5 < 0)) ∧
    (mpegChromaEmulated cex5 ↔ (mpegEmuCond cex5 ∧ cex5.gray = false)) ∧
    (c4mvEmuCond c5c4mv ↔ c4mvRectOOB c5c4mv) ∧
    (0 ≤ hpelSrcX c5hpel → 0 ≤ hpelSrcY c5hpel →
      hpelSrcX c5hpel + c5hpel.w + nz (hpelSX c5hpel) ≤ c5hpel.h_edge_pos →
      hpelSrcY c5hpel + c5hpel.h + nz (hpelSY c5hpel) ≤
        sar c5hpel.v_edge_pos (fbShift c5hpel.field_based) →
      ¬hpelEmuCond c5hpel) ∧
    (hpelSrcX c5hpel + c5hpel.w + nz (hpelSX c5hpel) = c5hpel.h_edge_pos + 1 →
      hpelEmuCond c5hpel)) :=
  ⟨by decide,
    lowres_edge_emulation_C5 c5hpel cex5 c5c4mv (by decide) (by decide)
      (by decide)
      (by decide) (by decide) (by decide) (by decide) (by decide) (by decide)
      (by decide) (by decide) (by decide) (by decide) (by decide) (by decide)
      (by decide) (by decide) (by decide) (by decide) (by decide) (by decide)⟩

end MpegVideoDec
